import Mathlib

/-!
# Verified model of the mat-model-lab elastic-tensor core

Shallow embedding of the numerical core of the `mat-model-lab` repository
(crystal-symmetry engine, VRH averaging, Born stability, coordinate
conversions, directional shear/Poisson evaluation) together with theorems
settling the specification claims about it.

Conventions:
* numpy float arrays are modelled with exact arithmetic — `ℚ` where every
  comparison the source makes is decidable, `ℝ` where transcendental
  functions, eigenvalues or matrix inversion are involved;
* in-place numpy writes `C[i, j] = v` become functional updates;
* Python exceptions become `Except String`;
* `np.linalg.eigvals` (an external LAPACK routine) is modelled by its
  mathematical meaning: the multiset of complex roots of the characteristic
  polynomial.
-/

namespace MatModelLab

-- Batteries marks the `Rat` field operations `@[irreducible]`, which blocks
-- `decide`-style evaluation of the exact-rational model; restore the default
-- reducibility so concrete runs of the embedded code reduce.
unseal Rat.add Rat.mul Rat.sub Rat.inv Rat.ofScientific

/-- A 0-indexed position in a 6x6 stiffness matrix. -/
abbrev Idx : Type := Fin 6 × Fin 6

/-- A 6x6 stiffness matrix with exact rational entries, indexed by an
`(i, j)` pair, mirroring the numpy indexing `C[i, j]` used throughout
`src/core/crystal_type.py`. -/
abbrev CMat : Type := Idx → ℚ

/-- The in-place numpy single-entry assignment `C[p] = v`. -/
def mset (C : CMat) (p : Idx) (v : ℚ) : CMat := Function.update C p v

/-- Apply a list of `(position, value)` writes left to right, later writes
winning; used for numpy assignment loops whose right-hand sides do not read
the array being written. -/
def applyWrites {I V : Type} [DecidableEq I] (ws : List (I × V)) (f : I → V) : I → V :=
  ws.foldl (fun g w => Function.update g w.1 w.2) f

/-- The pairs `(i, j)`, `i < j`, visited by the symmetrisation loop
`for i in range(6): for j in range(i + 1, 6)` of `fill_symmetric_matrix`
(`src/core/crystal_type.py`, lines 123-128). -/
def symPairs : List Idx :=
  (List.finRange 6).flatMap fun i =>
    ((List.finRange 6).filter fun j => decide (i < j)).map fun j => (i, j)

/-- One iteration of the symmetrisation loop of `fill_symmetric_matrix`:
`if C[i, j] != 0: C[j, i] = C[i, j]  elif C[j, i] != 0: C[i, j] = C[j, i]`. -/
def symStep (C : CMat) (p : Idx) : CMat :=
  if C p ≠ 0 then mset C (p.2, p.1) (C p)
  else if C (p.2, p.1) ≠ 0 then mset C p (C (p.2, p.1))
  else C

/-- The initial symmetrisation pass of `fill_symmetric_matrix`
(the double loop over the upper triangle). -/
def symmetrizePass (C : CMat) : CMat := symPairs.foldl symStep C

/-- One row of the crystal-type tables of `src/core/crystal_type.py`.
The `independent` strings of the source (`'c11'` etc.) are pre-converted to
0-indexed positions exactly as the source itself does everywhere it uses
them (`int(name[1]) - 1, int(name[2]) - 1`). -/
structure CrystalType where
  id : ℕ
  name : String
  independent : List Idx
deriving DecidableEq

/-- Independent positions of the 3D Triclinic class (the full upper
triangle, in the order listed in the source). -/
def triclinicIndependent : List Idx :=
  [(0, 0), (0, 1), (0, 2), (0, 3), (0, 4), (0, 5),
   (1, 1), (1, 2), (1, 3), (1, 4), (1, 5),
   (2, 2), (2, 3), (2, 4), (2, 5),
   (3, 3), (3, 4), (3, 5), (4, 4), (4, 5), (5, 5)]

/-- `CRYSTAL_TYPES_3D` (`src/core/crystal_type.py`, lines 8-19), in
dictionary order 1..10. -/
def CRYSTAL_TYPES_3D : List CrystalType :=
  [⟨1, "Cubic", [(0, 0), (0, 1), (3, 3)]⟩,
   ⟨2, "Tetragonal_1", [(0, 0), (0, 1), (0, 2), (2, 2), (3, 3), (5, 5)]⟩,
   ⟨3, "Tetragonal_2", [(0, 0), (0, 1), (0, 2), (0, 5), (2, 2), (3, 3), (5, 5)]⟩,
   ⟨4, "Orthorhombic",
     [(0, 0), (0, 1), (0, 2), (1, 1), (1, 2), (2, 2), (3, 3), (4, 4), (5, 5)]⟩,
   ⟨5, "Hexagonal", [(0, 0), (0, 1), (0, 2), (2, 2), (3, 3)]⟩,
   ⟨6, "Trigonal_1", [(0, 0), (0, 1), (0, 2), (0, 3), (2, 2), (3, 3)]⟩,
   ⟨7, "Trigonal_2", [(0, 0), (0, 1), (0, 2), (0, 3), (0, 4), (2, 2), (3, 3)]⟩,
   ⟨8, "Monoclinic_1",
     [(0, 0), (0, 1), (0, 2), (0, 5), (1, 1), (1, 2), (1, 5), (2, 2), (2, 5),
      (3, 3), (3, 4), (4, 4), (5, 5)]⟩,
   ⟨9, "Monoclinic_2",
     [(0, 0), (0, 1), (0, 2), (0, 3), (1, 1), (1, 2), (1, 3), (2, 2), (2, 3),
      (3, 3), (4, 4), (4, 5), (5, 5)]⟩,
   ⟨10, "Triclinic", triclinicIndependent⟩]

/-- `CRYSTAL_TYPES_2D` (`src/core/crystal_type.py`, lines 22-27). -/
def CRYSTAL_TYPES_2D : List CrystalType :=
  [⟨1, "Hexagonal", [(0, 0), (0, 1)]⟩,
   ⟨2, "Square", [(0, 0), (0, 1), (5, 5)]⟩,
   ⟨3, "Rectangular", [(0, 0), (0, 1), (1, 1), (5, 5)]⟩,
   ⟨4, "Oblique", [(0, 0), (0, 1), (0, 5), (1, 1), (1, 5), (5, 5)]⟩]

/-- `fill_symmetric_matrix(C, crystal_type, is_3d)` from
`src/core/crystal_type.py`, lines 99-217: the symmetrisation pass followed
by the per-class dependent-entry assignments, in source order (each
assignment reads the current state of the array, as in the source). -/
def fill_symmetric_matrix (C : CMat) (crystal_type : ℕ) (is_3d : Bool) : CMat :=
  let Cf := symmetrizePass C
  if is_3d then
    if crystal_type = 1 then
      -- Cubic: C11 = C22 = C33, C12 = C13 = C23, C44 = C55 = C66
      let Cf := mset Cf (1, 1) (Cf (0, 0))
      let Cf := mset Cf (2, 2) (Cf (0, 0))
      let Cf := mset Cf (0, 2) (Cf (0, 1))
      let Cf := mset Cf (2, 0) (Cf (0, 1))
      let Cf := mset Cf (1, 2) (Cf (0, 1))
      let Cf := mset Cf (2, 1) (Cf (0, 1))
      let Cf := mset Cf (4, 4) (Cf (3, 3))
      let Cf := mset Cf (5, 5) (Cf (3, 3))
      Cf
    else if crystal_type = 2 then
      -- Tetragonal_1: C22=C11, C23=C13, C55=C44
      let Cf := mset Cf (1, 1) (Cf (0, 0))
      let Cf := mset Cf (1, 2) (Cf (0, 2))
      let Cf := mset Cf (2, 1) (Cf (0, 2))
      let Cf := mset Cf (4, 4) (Cf (3, 3))
      Cf
    else if crystal_type = 3 then
      -- Tetragonal_2: C22=C11, C23=C13, C55=C44, C26=-C16
      let Cf := mset Cf (1, 1) (Cf (0, 0))
      let Cf := mset Cf (1, 2) (Cf (0, 2))
      let Cf := mset Cf (2, 1) (Cf (0, 2))
      let Cf := mset Cf (4, 4) (Cf (3, 3))
      let Cf := mset Cf (1, 5) (-Cf (0, 5))
      let Cf := mset Cf (5, 1) (-Cf (0, 5))
      Cf
    else if crystal_type = 5 then
      -- Hexagonal: C22=C11, C23=C13, C55=C44, C66=(C11-C12)/2
      let Cf := mset Cf (1, 1) (Cf (0, 0))
      let Cf := mset Cf (1, 2) (Cf (0, 2))
      let Cf := mset Cf (2, 1) (Cf (0, 2))
      let Cf := mset Cf (4, 4) (Cf (3, 3))
      let Cf := mset Cf (5, 5) ((Cf (0, 0) - Cf (0, 1)) / 2)
      Cf
    else if crystal_type = 6 then
      -- Trigonal_1: C22=C11, C23=C13, C55=C44, C24=-C14, C56=C14, C66=(C11-C12)/2
      let Cf := mset Cf (1, 1) (Cf (0, 0))
      let Cf := mset Cf (1, 2) (Cf (0, 2))
      let Cf := mset Cf (2, 1) (Cf (0, 2))
      let Cf := mset Cf (4, 4) (Cf (3, 3))
      let Cf := mset Cf (1, 3) (-Cf (0, 3))
      let Cf := mset Cf (3, 1) (-Cf (0, 3))
      let Cf := mset Cf (4, 5) (Cf (0, 3))
      let Cf := mset Cf (5, 4) (Cf (0, 3))
      let Cf := mset Cf (5, 5) ((Cf (0, 0) - Cf (0, 1)) / 2)
      Cf
    else if crystal_type = 7 then
      -- Trigonal_2: Trigonal_1 rules plus C25=-C15, C46=-C15
      let Cf := mset Cf (1, 1) (Cf (0, 0))
      let Cf := mset Cf (1, 2) (Cf (0, 2))
      let Cf := mset Cf (2, 1) (Cf (0, 2))
      let Cf := mset Cf (4, 4) (Cf (3, 3))
      let Cf := mset Cf (1, 3) (-Cf (0, 3))
      let Cf := mset Cf (3, 1) (-Cf (0, 3))
      let Cf := mset Cf (4, 5) (Cf (0, 3))
      let Cf := mset Cf (5, 4) (Cf (0, 3))
      let Cf := mset Cf (1, 4) (-Cf (0, 4))
      let Cf := mset Cf (4, 1) (-Cf (0, 4))
      let Cf := mset Cf (3, 5) (-Cf (0, 4))
      let Cf := mset Cf (5, 3) (-Cf (0, 4))
      let Cf := mset Cf (5, 5) ((Cf (0, 0) - Cf (0, 1)) / 2)
      Cf
    else Cf
  else
    if crystal_type = 1 then
      -- Hexagonal 2D: C22 = C11, C66 = (C11 - C12) / 2
      let Cf := mset Cf (1, 1) (Cf (0, 0))
      let Cf := mset Cf (5, 5) ((Cf (0, 0) - Cf (0, 1)) / 2)
      Cf
    else if crystal_type = 2 then
      -- Square 2D: C22 = C11
      mset Cf (1, 1) (Cf (0, 0))
    else Cf

/-- `np.allclose(A, B, atol=tol, rtol=tol)`: elementwise
`|A - B| <= atol + rtol * |B|`. -/
def allclose (A B : CMat) (tol : ℚ) : Bool :=
  decide (∀ p : Idx, |A p - B p| ≤ tol + tol * |B p|)

/-- The sparse probe matrix `C_test` built by `identify_crystal_type` for one
candidate class: zeros everywhere, then for each independent position
`(i, j)` the writes `C_test[i, j] = C[i, j]; C_test[j, i] = C[i, j]`. -/
def probeMatrix (C : CMat) (independent : List Idx) : CMat :=
  applyWrites (independent.flatMap fun p => [(p, C p), ((p.2, p.1), C p)]) fun _ => 0

/-- The loop-body test of `identify_crystal_type` for one candidate class:
reconstruct the ideal matrix from the probe and compare with `allclose`. -/
def typeMatches (C : CMat) (tol : ℚ) (t : CrystalType) : Bool :=
  allclose C (fill_symmetric_matrix (probeMatrix C t.independent) t.id true) tol

/-- The candidate list sorted by number of independent constants
(`sorted(CRYSTAL_TYPES_3D.items(), key=lambda x: len(x[1]['independent']))`;
Python's `sorted` is a stable sort by key, and insertion sort with `≤` on
the key is the same stable sort). -/
def sortedTypes : List CrystalType :=
  CRYSTAL_TYPES_3D.insertionSort fun a b => a.independent.length ≤ b.independent.length

/-- The candidate loop of `identify_crystal_type`: return on the first
match, with the post-loop Triclinic fallback. -/
def identifyGo (C : CMat) (tol : ℚ) : List CrystalType → ℕ × String
  | [] => (10, "Triclinic")
  | t :: ts => if typeMatches C tol t then (t.id, t.name) else identifyGo C tol ts

/-- `identify_crystal_type(C, tolerance)` from `src/core/crystal_type.py`,
lines 220-275 (the 6x6 shape test of the source is discharged by the `CMat`
type itself; the source default for `tolerance` is `1e-6`). -/
def identify_crystal_type (C : CMat) (tol : ℚ) : ℕ × String :=
  identifyGo C tol sortedTypes

/-- The table row of a given 3D crystal-type id (the dictionary lookup
`CRYSTAL_TYPES_3D[k]`). -/
def typeOf3D (k : ℕ) : CrystalType :=
  ((CRYSTAL_TYPES_3D.find? fun t => t.id = k).getD ⟨0, "Unknown", []⟩)

/-- The table row of a given 2D crystal-type id. -/
def typeOf2D (k : ℕ) : CrystalType :=
  ((CRYSTAL_TYPES_2D.find? fun t => t.id = k).getD ⟨0, "Unknown", []⟩)

/-- The 2-D crystal-type detection heuristic used by the GUI
(`src/gui/modules/elasticity/widget.py`, lines 1118-1136), including the
`type_id` lookup loop over `CRYSTAL_TYPES_2D`. -/
def detect_crystal_type_2d (C : CMat) : ℕ × String :=
  let c11 := C (0, 0)
  let c12 := C (0, 1)
  let c22 := C (1, 1)
  let c16 := C (0, 5)
  let c26 := C (1, 5)
  let c66 := C (5, 5)
  let detected : String :=
    if |c16| < 1e-6 ∧ |c26| < 1e-6 then
      if |c11 - c22| < 1e-6 ∧ |c66 - (c11 - c12) / 2| < 1e-6 then "Hexagonal"
      else if |c11 - c22| < 1e-6 then "Square"
      else "Rectangular"
    else "Oblique"
  let type_id := ((CRYSTAL_TYPES_2D.find? fun t => t.name = detected).map CrystalType.id).getD 0
  (type_id, detected)

/-- An assignment of values to exactly one class's independent positions:
nonzero there, zero elsewhere, pairwise distinct (the hypothesis of the C2
round-trip claim). -/
abbrev validAssignment (ex : CMat) (t : CrystalType) : Prop :=
  (∀ p ∈ t.independent, ex p ≠ 0) ∧ (∀ p : Idx, p ∉ t.independent → ex p = 0) ∧
    t.independent.Pairwise fun p q => ex p ≠ ex q

/-- Build a test matrix from a list of entries (zeros elsewhere). -/
def ofEntries (l : List (Idx × ℚ)) : CMat := applyWrites l fun _ => 0

/-- Distinct nonzero values at exactly the Cubic independent positions. -/
def exCubic : CMat := ofEntries [((0, 0), 10), ((0, 1), 4), ((3, 3), 2)]

/-- Distinct nonzero values at exactly the Hexagonal independent positions. -/
def exHexagonal : CMat :=
  ofEntries [((0, 0), 10), ((0, 1), 4), ((0, 2), 3), ((2, 2), 8), ((3, 3), 2)]

/-- Distinct nonzero values at exactly the Tetragonal_1 independent positions. -/
def exTet1 : CMat :=
  ofEntries [((0, 0), 10), ((0, 1), 4), ((0, 2), 3), ((2, 2), 8), ((3, 3), 2), ((5, 5), 5)]

/-- Distinct nonzero values at exactly the Tetragonal_1 independent
positions, chosen with `C66 = (C11 - C12) / 2` so that the completed matrix
also satisfies every Hexagonal constraint. -/
def exTet1Coincidence : CMat :=
  ofEntries [((0, 0), 10), ((0, 1), 2), ((0, 2), 3), ((2, 2), 8), ((3, 3), 5), ((5, 5), 4)]

/-- Distinct nonzero values at exactly the Trigonal_1 independent positions. -/
def exTrig1 : CMat :=
  ofEntries [((0, 0), 10), ((0, 1), 4), ((0, 2), 3), ((0, 3), 5), ((2, 2), 8), ((3, 3), 2)]

/-- Distinct nonzero values at exactly the Tetragonal_2 independent positions. -/
def exTet2 : CMat :=
  ofEntries [((0, 0), 10), ((0, 1), 4), ((0, 2), 3), ((0, 5), 5), ((2, 2), 8), ((3, 3), 2),
    ((5, 5), 6)]

/-- Distinct nonzero values at exactly the Trigonal_2 independent positions. -/
def exTrig2 : CMat :=
  ofEntries [((0, 0), 10), ((0, 1), 4), ((0, 2), 3), ((0, 3), 5), ((0, 4), 6), ((2, 2), 8),
    ((3, 3), 2)]

/-- Distinct nonzero values at exactly the Orthorhombic independent positions. -/
def exOrtho : CMat :=
  ofEntries [((0, 0), 10), ((0, 1), 4), ((0, 2), 3), ((1, 1), 9), ((1, 2), 6), ((2, 2), 8),
    ((3, 3), 2), ((4, 4), 7), ((5, 5), 5)]

/-- Distinct nonzero values at exactly the Monoclinic_1 independent positions. -/
def exMono1 : CMat :=
  ofEntries [((0, 0), 10), ((0, 1), 4), ((0, 2), 3), ((0, 5), 5), ((1, 1), 9), ((1, 2), 6),
    ((1, 5), 7), ((2, 2), 8), ((2, 5), 11), ((3, 3), 2), ((3, 4), 12), ((4, 4), 13),
    ((5, 5), 14)]

/-- Distinct nonzero values at exactly the Monoclinic_2 independent positions. -/
def exMono2 : CMat :=
  ofEntries [((0, 0), 10), ((0, 1), 4), ((0, 2), 3), ((0, 3), 5), ((1, 1), 9), ((1, 2), 6),
    ((1, 3), 7), ((2, 2), 8), ((2, 3), 11), ((3, 3), 2), ((4, 4), 13), ((4, 5), 12),
    ((5, 5), 14)]

/-- Distinct nonzero values (1..21) at exactly the Triclinic independent
positions. -/
def exTriclinic : CMat :=
  ofEntries (triclinicIndependent.zip ((List.range 21).map fun n => ((n : ℚ) + 1)))

/-- Distinct nonzero values at exactly the 2D Hexagonal independent positions. -/
def ex2DHexagonal : CMat := ofEntries [((0, 0), 10), ((0, 1), 4)]

/-- Distinct nonzero values at exactly the 2D Square independent positions. -/
def ex2DSquare : CMat := ofEntries [((0, 0), 10), ((0, 1), 4), ((5, 5), 5)]

/-- Distinct nonzero values at exactly the 2D Rectangular independent positions. -/
def ex2DRectangular : CMat :=
  ofEntries [((0, 0), 10), ((0, 1), 4), ((1, 1), 9), ((5, 5), 5)]

/-- Distinct nonzero values at exactly the 2D Oblique independent positions. -/
def ex2DOblique : CMat :=
  ofEntries [((0, 0), 10), ((0, 1), 4), ((0, 5), 5), ((1, 1), 9), ((1, 5), 6), ((5, 5), 7)]

/-- Distinct nonzero values at exactly the 2D Square independent positions,
chosen with `C66 = (C11 - C12) / 2` so that the completed matrix also
satisfies every 2D Hexagonal constraint. -/
def ex2DSquareCoincidence : CMat := ofEntries [((0, 0), 10), ((0, 1), 2), ((5, 5), 4)]

/-- A concrete symmetric matrix used to witness the classification theorem. -/
def C1Witness : CMat := fun p => if p.1 = p.2 then 2 else 1

/-- A concrete matrix with distinct nonzero values everywhere, used to
witness the symmetrisation-pass theorem. -/
def C10Witness : CMat := fun p => ((p.1 : ℕ) * 6 + (p.2 : ℕ) + 1 : ℚ)

/-! ## Shape-aware numpy arrays

`CMat` fixes the 6x6 shape in the type; claims about other shapes (3x3
in-plane matrices, non-square inputs) need the shape as data, with
bounds-checked indexing, since numpy raises `IndexError` on an out-of-range
index. -/

/-- A numpy 2-D array: an explicit shape and a total entry function (only
reads/writes through the bounds-checked `get`/`set` model the source). -/
structure NMat (α : Type) where
  rows : ℕ
  cols : ℕ
  entry : ℕ → ℕ → α

/-- Bounds-checked numpy read `M[i, j]`. -/
def NMat.get {α : Type} (M : NMat α) (i j : ℕ) : Except String α :=
  if i < M.rows ∧ j < M.cols then .ok (M.entry i j) else .error "IndexError"

/-- Bounds-checked numpy write `M[i, j] = v`. -/
def NMat.set {α : Type} (M : NMat α) (i j : ℕ) (v : α) : Except String (NMat α) :=
  if i < M.rows ∧ j < M.cols then
    .ok ⟨M.rows, M.cols, fun a b => if a = i ∧ b = j then v else M.entry a b⟩
  else .error "IndexError"

/-- One iteration of the symmetrisation loop of `fill_symmetric_matrix`,
bounds-checked. -/
def symStepChecked (M : NMat ℚ) (i j : ℕ) : Except String (NMat ℚ) := do
  let vij ← M.get i j
  if vij ≠ 0 then M.set j i vij
  else
    let vji ← M.get j i
    if vji ≠ 0 then M.set i j vji
    else pure M

/-- The symmetrisation pass of `fill_symmetric_matrix` over the array's
actual shape (`for i in range(C.shape[0]): for j in range(i + 1, C.shape[1])`). -/
def symmetrizePassChecked (M : NMat ℚ) : Except String (NMat ℚ) :=
  ((List.range M.rows).flatMap fun i =>
      ((List.range M.cols).filter fun j => decide (i < j)).map fun j => (i, j)).foldlM
    (fun A p => symStepChecked A p.1 p.2) M

/-- `fill_symmetric_matrix` again, over a shape-carrying array with every
numpy index bounds-checked (the `CMat` version above specialises this to the
6x6 shape, where no access can be out of range); each source assignment
`C[i, j] = e` becomes reads of `e`'s operands followed by a checked write. -/
def fill_symmetric_matrix_checked (M : NMat ℚ) (crystal_type : ℕ) (is_3d : Bool) :
    Except String (NMat ℚ) := do
  let Cf ← symmetrizePassChecked M
  if is_3d then
    if crystal_type = 1 then do
      -- Cubic
      let v ← Cf.get 0 0
      let Cf ← Cf.set 1 1 v
      let v ← Cf.get 0 0
      let Cf ← Cf.set 2 2 v
      let v ← Cf.get 0 1
      let Cf ← Cf.set 0 2 v
      let v ← Cf.get 0 1
      let Cf ← Cf.set 2 0 v
      let v ← Cf.get 0 1
      let Cf ← Cf.set 1 2 v
      let v ← Cf.get 0 1
      let Cf ← Cf.set 2 1 v
      let v ← Cf.get 3 3
      let Cf ← Cf.set 4 4 v
      let v ← Cf.get 3 3
      Cf.set 5 5 v
    else if crystal_type = 2 then do
      -- Tetragonal_1
      let v ← Cf.get 0 0
      let Cf ← Cf.set 1 1 v
      let v ← Cf.get 0 2
      let Cf ← Cf.set 1 2 v
      let v ← Cf.get 0 2
      let Cf ← Cf.set 2 1 v
      let v ← Cf.get 3 3
      Cf.set 4 4 v
    else if crystal_type = 3 then do
      -- Tetragonal_2
      let v ← Cf.get 0 0
      let Cf ← Cf.set 1 1 v
      let v ← Cf.get 0 2
      let Cf ← Cf.set 1 2 v
      let v ← Cf.get 0 2
      let Cf ← Cf.set 2 1 v
      let v ← Cf.get 3 3
      let Cf ← Cf.set 4 4 v
      let v ← Cf.get 0 5
      let Cf ← Cf.set 1 5 (-v)
      let v ← Cf.get 0 5
      Cf.set 5 1 (-v)
    else if crystal_type = 5 then do
      -- Hexagonal
      let v ← Cf.get 0 0
      let Cf ← Cf.set 1 1 v
      let v ← Cf.get 0 2
      let Cf ← Cf.set 1 2 v
      let v ← Cf.get 0 2
      let Cf ← Cf.set 2 1 v
      let v ← Cf.get 3 3
      let Cf ← Cf.set 4 4 v
      let a ← Cf.get 0 0
      let b ← Cf.get 0 1
      Cf.set 5 5 ((a - b) / 2)
    else if crystal_type = 6 then do
      -- Trigonal_1
      let v ← Cf.get 0 0
      let Cf ← Cf.set 1 1 v
      let v ← Cf.get 0 2
      let Cf ← Cf.set 1 2 v
      let v ← Cf.get 0 2
      let Cf ← Cf.set 2 1 v
      let v ← Cf.get 3 3
      let Cf ← Cf.set 4 4 v
      let v ← Cf.get 0 3
      let Cf ← Cf.set 1 3 (-v)
      let v ← Cf.get 0 3
      let Cf ← Cf.set 3 1 (-v)
      let v ← Cf.get 0 3
      let Cf ← Cf.set 4 5 v
      let v ← Cf.get 0 3
      let Cf ← Cf.set 5 4 v
      let a ← Cf.get 0 0
      let b ← Cf.get 0 1
      Cf.set 5 5 ((a - b) / 2)
    else if crystal_type = 7 then do
      -- Trigonal_2
      let v ← Cf.get 0 0
      let Cf ← Cf.set 1 1 v
      let v ← Cf.get 0 2
      let Cf ← Cf.set 1 2 v
      let v ← Cf.get 0 2
      let Cf ← Cf.set 2 1 v
      let v ← Cf.get 3 3
      let Cf ← Cf.set 4 4 v
      let v ← Cf.get 0 3
      let Cf ← Cf.set 1 3 (-v)
      let v ← Cf.get 0 3
      let Cf ← Cf.set 3 1 (-v)
      let v ← Cf.get 0 3
      let Cf ← Cf.set 4 5 v
      let v ← Cf.get 0 3
      let Cf ← Cf.set 5 4 v
      let v ← Cf.get 0 4
      let Cf ← Cf.set 1 4 (-v)
      let v ← Cf.get 0 4
      let Cf ← Cf.set 4 1 (-v)
      let v ← Cf.get 0 4
      let Cf ← Cf.set 3 5 (-v)
      let v ← Cf.get 0 4
      let Cf ← Cf.set 5 3 (-v)
      let a ← Cf.get 0 0
      let b ← Cf.get 0 1
      Cf.set 5 5 ((a - b) / 2)
    else pure Cf
  else
    if crystal_type = 1 then do
      -- Hexagonal 2D: C22 = C11, then C66 = (C11 - C12) / 2 at index (5, 5)
      let v ← Cf.get 0 0
      let Cf ← Cf.set 1 1 v
      let a ← Cf.get 0 0
      let b ← Cf.get 0 1
      Cf.set 5 5 ((a - b) / 2)
    else if crystal_type = 2 then do
      -- Square 2D: only C22 = C11 at index (1, 1)
      let v ← Cf.get 0 0
      Cf.set 1 1 v
    else pure Cf

/-- Whether an `Except` computation completed without raising. -/
def exceptOk {ε α : Type} : Except ε α → Bool
  | .ok _ => true
  | .error _ => false

/-- The 3x3 in-plane example matrix of the `D2toD3` docstring, used as the
concrete 3x3 input for the out-of-bounds claim. -/
def ex2D3x3 : NMat ℚ :=
  ⟨3, 3, fun i j =>
    if i = 0 ∧ j = 0 then 100 else if i = 0 ∧ j = 1 then 50
    else if i = 1 ∧ j = 0 then 50 else if i = 1 ∧ j = 1 then 100
    else if i = 2 ∧ j = 2 then 25 else 0⟩

/-! ## Born stability and 2D/3D conversions (`src/core/stability.py`,
`src/core/conversions.py`)

Real-valued matrices; `np.linalg.eigvals` is an external LAPACK routine and
is modelled by its mathematical meaning, the multiset of complex roots of
the characteristic polynomial. -/

/-- The eigenvalues (with multiplicity) of a real square matrix, as computed
by `np.linalg.eigvals`: the complex roots of the characteristic polynomial. -/
noncomputable def eigvals {k : ℕ} (A : Matrix (Fin k) (Fin k) ℝ) : Multiset ℂ :=
  ((A.map (Complex.ofReal ·)).charpoly).roots

/-- The Born criterion tested by `StableofMechanical`:
`np.all(np.real(eigenvalues) > 0)`. -/
def bornStable {k : ℕ} (A : Matrix (Fin k) (Fin k) ℝ) : Prop :=
  ∀ z ∈ eigvals A, 0 < z.re

/-- The reduction of a 6x6-embedded 2D matrix to its in-plane 3x3 block:
`C[np.ix_([0, 1, 5], [0, 1, 5])]`. -/
def reduce015 (M : NMat ℝ) : Matrix (Fin 3) (Fin 3) ℝ :=
  Matrix.of fun i j => M.entry (![0, 1, 5] i) (![0, 1, 5] j)

open Classical in
/-- `StableofMechanical(C)` from `src/core/stability.py`, lines 7-61,
returning the pair (printed messages, boolean verdict): a non-square or
wrongly-sized matrix prints a diagnostic and returns `False`; a 6x6 matrix
whose rows/columns 2..4 are `allclose` to zero (atol `1e-8`) is reduced to
its `{0,1,5}` block before the eigenvalue test. -/
noncomputable def StableofMechanical (M : NMat ℝ) : List String × Bool :=
  if M.rows ≠ M.cols then
    (["This is not an effective CIJ, the row and column of CIJ must be EQUAL."], false)
  else if M.cols = 6 then
    if ∀ i j : Fin 3, |M.entry (i.val + 2) (j.val + 2)| ≤ 1e-8 then
      ([], decide (bornStable (reduce015 M)))
    else ([], decide (bornStable (Matrix.of fun i j : Fin 6 => M.entry i j)))
  else if M.cols ≠ 3 then
    (["This is not an effective CIJ, the row and column must be 3 or 6"], false)
  else ([], decide (bornStable (Matrix.of fun i j : Fin 3 => M.entry i j)))

/-- The result dictionary of `check_stability_detailed`: `eigenvalues` and
`min_eigenvalue` stay `None` when the shape checks abort the analysis. -/
structure StabilityResult where
  stable : Bool
  eigenvalues : Option (List ℝ)
  min_eigenvalue : Option ℝ
  message : String

/-- The real parts of the eigenvalues, as a list
(`np.real(np.linalg.eigvals(C))`; the order of an eigenvalue list is not
specified by LAPACK, so any enumeration of the root multiset is faithful). -/
noncomputable def eigRealList {k : ℕ} (A : Matrix (Fin k) (Fin k) ℝ) : List ℝ :=
  ((eigvals A).toList).map Complex.re

open Classical in
/-- The eigenvalue-analysis tail of `check_stability_detailed` shared by its
2D and 3D branches (`src/core/stability.py`, lines 101-140). -/
noncomputable def detailedVerdict {k : ℕ} (A : Matrix (Fin k) (Fin k) ℝ)
    (is2d : Bool) : StabilityResult :=
  let ev := eigRealList A
  if ∀ x ∈ ev, 0 < x then
    { stable := true, eigenvalues := some ev, min_eigenvalue := ev.min?,
      message := if is2d then "Structure is mechanically STABLE (2D)"
        else "Structure is mechanically STABLE" }
  else
    { stable := false, eigenvalues := some ev, min_eigenvalue := ev.min?,
      message := (if is2d then "Structure is UNSTABLE (2D) ("
        else "Structure is UNSTABLE (") ++
        toString (ev.filter fun x => decide (x ≤ 0)).length ++
        " non-positive eigenvalue(s))" }

open Classical in
/-- `check_stability_detailed(C, is_2d)` from `src/core/stability.py`,
lines 64-140 (the 2D branch presumes the 6x6-embedded form, as the source
does; its indexing of rows/columns 5 on a 3x3 array is not exercised by any
claim). -/
noncomputable def check_stability_detailed (M : NMat ℝ) (is_2d : Bool) :
    StabilityResult :=
  if M.rows ≠ M.cols then
    { stable := false, eigenvalues := none, min_eigenvalue := none,
      message := "Matrix is not square" }
  else if M.cols ≠ 6 ∧ M.cols ≠ 3 then
    { stable := false, eigenvalues := none, min_eigenvalue := none,
      message := "Matrix must be 3x3 or 6x6" }
  else if is_2d then detailedVerdict (reduce015 M) true
  else detailedVerdict (Matrix.of fun i j : Fin M.cols => M.entry i j) false

/-- `D2toD3(Cij3)` from `src/core/conversions.py`, lines 8-57: embeds
stacked 3x3 in-plane matrices into 6x6 matrices at positions
`{0, 1, 5} x {0, 1, 5}` (zeros elsewhere), with the source's 3-column check
and the single-matrix slice at the end. -/
def D2toD3 (M : NMat ℝ) : Except String (NMat ℝ) :=
  if M.cols ≠ 3 then .error "Input matrix must have 3 columns for 2D stiffness"
  else
    let num := M.rows / 3
    -- enumerate([0, 1, 5]) as (2D index, 3D index) pairs
    let indices : List (ℕ × ℕ) := [(0, 0), (1, 1), (2, 5)]
    let writes : List ((ℕ × ℕ) × ℝ) :=
      (List.range num).flatMap fun i =>
        indices.flatMap fun r =>
          indices.map fun c => ((i * 6 + r.2, c.2), M.entry (i * 3 + r.1) c.1)
    let C6 : NMat ℝ := ⟨num * 6, 6, fun a b => applyWrites writes (fun _ => 0) (a, b)⟩
    .ok (if num = 1 then ⟨6, 6, C6.entry⟩ else C6)

/-- `D3toD2(Cij6)` from `src/core/conversions.py`, lines 60-89: extracts the
`{0, 1, 5} x {0, 1, 5}` block of a 6x6 matrix. -/
def D3toD2 (M : NMat ℝ) : Except String (NMat ℝ) :=
  if M.rows ≠ 6 ∨ M.cols ≠ 6 then .error "Input matrix must be 6x6"
  else .ok ⟨3, 3, fun a b =>
    if a < 3 ∧ b < 3 then M.entry (![0, 1, 5] ⟨a % 3, Nat.mod_lt a (by norm_num)⟩)
      (![0, 1, 5] ⟨b % 3, Nat.mod_lt b (by norm_num)⟩) else 0⟩

/-- A 3x3 real matrix as a shape-carrying numpy array. -/
def mat3ToNMat (B : Matrix (Fin 3) (Fin 3) ℝ) : NMat ℝ :=
  ⟨3, 3, fun i j => if h : i < 3 ∧ j < 3 then B ⟨i, h.1⟩ ⟨j, h.2⟩ else 0⟩

/-- The 6x6 matrix produced by `D2toD3` on an (embedded) 3x3 input. -/
def d2tod3Result (B : Matrix (Fin 3) (Fin 3) ℝ) : NMat ℝ :=
  ((D2toD3 (mat3ToNMat B)).toOption).getD ⟨0, 0, fun _ _ => 0⟩

/-- A concrete non-square (2x3) input for the shape-error claims. -/
def bad23 : NMat ℝ := ⟨2, 3, fun _ _ => 0⟩

/-- A concrete square input whose size is neither 3 nor 6. -/
def bad44 : NMat ℝ := ⟨4, 4, fun _ _ => 0⟩

/-- A concrete mechanically unstable 3x3 matrix (all eigenvalues -1). -/
def unstable3 : NMat ℝ := ⟨3, 3, fun i j => if i = j then -1 else 0⟩


/-! ## Voigt-Reuss-Hill averaging (`src/core/elastic_vrh.py`,
`src/core/elastic_vrh_2d.py`) -/

/-- The dictionary returned by `ElasticVRH3D`. -/
structure VRH3DResult where
  K_V : ℝ
  K_R : ℝ
  K_VRH : ℝ
  G_V : ℝ
  G_R : ℝ
  G_VRH : ℝ
  E : ℝ
  v : ℝ
  A : ℝ
  P_C : ℝ
  k_G : ℝ
  H : ℝ

/-- The body of `ElasticVRH3D` given the compliance matrix `S = inv(C)`
(every formula verbatim from `src/core/elastic_vrh.py`, lines 28-73). -/
noncomputable def mkVRH3D (C S : Matrix (Fin 6) (Fin 6) ℝ) : VRH3DResult :=
  let K_V := (C 0 0 + C 1 1 + C 2 2 + 2 * (C 0 1 + C 0 2 + C 1 2)) / 9
  let G_V := (C 0 0 + C 1 1 + C 2 2 - (C 0 1 + C 0 2 + C 1 2) +
    3 * (C 3 3 + C 4 4 + C 5 5)) / 15
  let K_R := 1 / (S 0 0 + S 1 1 + S 2 2 + 2 * (S 0 1 + S 0 2 + S 1 2))
  let G_R := 15 / (4 * (S 0 0 + S 1 1 + S 2 2) - 4 * (S 0 1 + S 0 2 + S 1 2) +
    3 * (S 3 3 + S 4 4 + S 5 5))
  let K_VRH := (K_V + K_R) / 2
  let G_VRH := (G_V + G_R) / 2
  let E := 9 * K_VRH * G_VRH / (3 * K_VRH + G_VRH)
  let v := (3 * K_VRH - 2 * G_VRH) / (6 * K_VRH + 2 * G_VRH)
  let A := 5 * G_V / G_R + K_V / K_R - 6
  let P_C := C 0 1 - C 3 3
  let k_G := K_VRH / G_VRH
  let H := 2 * (G_VRH ^ 2 / K_VRH) ^ (0.585 : ℝ) - 3
  ⟨K_V, K_R, K_VRH, G_V, G_R, G_VRH, E, v, A, P_C, k_G, H⟩

open Classical in
/-- `np.linalg.inv` on a 6x6 real matrix: the true inverse, or the
`LinAlgError("Singular matrix")` it raises when the matrix is singular. -/
noncomputable def npInv6 (C : Matrix (Fin 6) (Fin 6) ℝ) :
    Except String (Matrix (Fin 6) (Fin 6) ℝ) :=
  if IsUnit C.det then .ok C⁻¹ else .error "Singular matrix"

/-- `ElasticVRH3D(C)` from `src/core/elastic_vrh.py` with the exception
channel explicit: the `np.linalg.inv` failure propagates to the caller and
the result dictionary is never built (the source computes `K_V`, `G_V`
before inverting, but nothing escapes before the raise). -/
noncomputable def ElasticVRH3D (C : Matrix (Fin 6) (Fin 6) ℝ) :
    Except String VRH3DResult := do
  let S ← npInv6 C
  .ok (mkVRH3D C S)

/-- The dictionary returned by `ElasticVRH2D`. -/
structure VRH2DResult where
  K_V : ℚ
  K_R : ℚ
  K_VRH : ℚ
  G_V : ℚ
  G_R : ℚ
  G_VRH : ℚ
  E : ℚ
  v : ℚ
  H : ℚ
  A : ℚ
  k_G : ℚ

/-- The 3x3 planar stiffness block `C_planar` assembled entry by entry by
`ElasticVRH2D` (`src/core/elastic_vrh_2d.py`, lines 47-58); the nine
assignments are exactly the `{0, 1, 5} x {0, 1, 5}` block. -/
def planar (C : Matrix (Fin 6) (Fin 6) ℚ) : Matrix (Fin 3) (Fin 3) ℚ :=
  Matrix.of fun i j => C (![0, 1, 5] i) (![0, 1, 5] j)

/-- `np.linalg.inv` on the planar block, computable over `ℚ`: the inverse
via the adjugate (the matrix inverse whenever the determinant is nonzero),
or the raised `LinAlgError`. -/
def npInv3Q (A : Matrix (Fin 3) (Fin 3) ℚ) :
    Except String (Matrix (Fin 3) (Fin 3) ℚ) :=
  if A.det ≠ 0 then .ok (A.det⁻¹ • A.adjugate) else .error "Singular matrix"

/-- `ElasticVRH2D(C)` from `src/core/elastic_vrh_2d.py`: the singular
planar block is caught (`except LinAlgError: S_planar = zeros`), so the
function always returns a result record. The `0 if denominator == 0`
guards are verbatim; the one unguarded division, `G_R = 2/(...)`, is a
float `inf` in numpy when its denominator vanishes and the junk value `0`
of rational division here — in both semantics the function completes
normally, which is all any claim inspects. -/
def ElasticVRH2D (C : Matrix (Fin 6) (Fin 6) ℚ) : Except String VRH2DResult :=
  let c11 := C 0 0
  let c22 := C 1 1
  let c12 := C 0 1
  let c66 := C 5 5
  let K_V := (c11 + c22 + 2 * c12) / 4
  let G_V := (c11 + c22 - 2 * c12 + 4 * c66) / 8
  let S_planar := match npInv3Q (planar C) with
    | .ok S => S
    | .error _ => 0
  let s11 := S_planar 0 0
  let s22 := S_planar 1 1
  let s12 := S_planar 0 1
  let s66 := S_planar 2 2
  let K_R := if s11 + s22 + 2 * s12 ≠ 0 then 1 / (s11 + s22 + 2 * s12) else 0
  let G_R := 2 / (s11 + s22 - 2 * s12 + s66)
  let K_VRH := (K_V + K_R) / 2
  let G_VRH := (G_V + G_R) / 2
  let E_iso := if K_VRH + G_VRH ≠ 0 then 4 * K_VRH * G_VRH / (K_VRH + G_VRH) else 0
  let v_iso := if K_VRH + G_VRH ≠ 0 then (K_VRH - G_VRH) / (K_VRH + G_VRH) else 0
  let H_iso : ℚ := 0
  let A_U := if K_R ≠ 0 ∧ G_R ≠ 0 then K_V / K_R + G_V / G_R - 2 else 0
  let k_G := if G_VRH ≠ 0 then K_VRH / G_VRH else 0
  .ok ⟨K_V, K_R, K_VRH, G_V, G_R, G_VRH, E_iso, v_iso, H_iso, A_U, k_G⟩


/-! ## Direction/angle conversions (`src/core/conversions.py`) -/

open Classical in
/-- `Direction2Ang(x, y, z)` (elementwise/scalar form) from
`src/core/conversions.py`, lines 92-148: `r = sqrt(x^2+y^2+z^2)` with the
zero-radius epsilon substitution, `theta = arccos(z / r)`, `phi` from the
clipped `arccos(x / rxy)` when the mask `rxy > 1e-10` holds (0 otherwise),
reflected to `2*pi - phi` whenever `y < 0`, and the final origin override
`phi = 0` when `|x| < 1e-10` and `|y| < 1e-10`. -/
noncomputable def Direction2Ang (x y z : ℝ) : ℝ × ℝ :=
  let r0 := Real.sqrt (x ^ 2 + y ^ 2 + z ^ 2)
  let r := if r0 = 0 then 1e-10 else r0
  let theta := Real.arccos (z / r)
  let rxy := Real.sqrt (x ^ 2 + y ^ 2)
  -- np.clip(v, -1, 1) = min(max(v, -1), 1); the mask gates the arccos term
  let phi1 := if rxy > 1e-10 then Real.arccos (min (max (x / rxy) (-1)) 1) else 0
  let phi2 := if y < 0 then 2 * Real.pi - phi1 else phi1
  let phi := if |x| < 1e-10 ∧ |y| < 1e-10 then 0 else phi2
  (theta, phi)

/-- `Ang2Direction(theta, phi)` from `src/core/conversions.py`,
lines 151-183: the standard spherical-to-Cartesian conversion. -/
noncomputable def Ang2Direction (theta phi : ℝ) : ℝ × ℝ × ℝ :=
  (Real.sin theta * Real.cos phi, Real.sin theta * Real.sin phi, Real.cos theta)


/-! ## Directional shear and Poisson aggregates (`src/core/shear.py`,
`src/core/poisson.py`) -/

def voigt_map : Fin 6 → Fin 3 × Fin 3 := ![(0, 0), (1, 1), (2, 2), (1, 2), (0, 2), (0, 1)]

noncomputable def tensorWrites (S : Fin 6 → Fin 6 → ℝ) :
    List ((Fin 3 × Fin 3 × Fin 3 × Fin 3) × ℝ) :=
  (List.finRange 6).flatMap fun i =>
    (List.finRange 6).flatMap fun j =>
      let u := (voigt_map i).1
      let v := (voigt_map i).2
      let x := (voigt_map j).1
      let y := (voigt_map j).2
      let factor : ℝ := (if 3 ≤ i.val then 2 else 1) * (if 3 ≤ j.val then 2 else 1)
      let val := S i j / factor
      let permsI := (u, v) :: (if u ≠ v then [(v, u)] else [])
      let permsJ := (x, y) :: (if x ≠ y then [(y, x)] else [])
      permsI.flatMap fun p1 => permsJ.map fun p2 => ((p1.1, p1.2, p2.1, p2.2), val)

noncomputable def S_tensor (S : Fin 6 → Fin 6 → ℝ) : Fin 3 × Fin 3 × Fin 3 × Fin 3 → ℝ :=
  applyWrites (tensorWrites S) fun _ => 0

noncomputable def Shear_4D (S : Fin 6 → Fin 6 → ℝ) (theta phi chi : ℝ) : ℝ :=
  let n1 := Real.sin theta * Real.cos phi
  let n2 := Real.sin theta * Real.sin phi
  let n3 := Real.cos theta
  let m1 := Real.cos chi * Real.cos theta * Real.cos phi - Real.sin chi * Real.sin phi
  let m2 := Real.cos chi * Real.cos theta * Real.sin phi + Real.sin chi * Real.cos phi
  let m3 := -(Real.cos chi) * Real.sin theta
  let n_vec : Fin 3 → ℝ := ![n1, n2, n3]
  let m_vec : Fin 3 → ℝ := ![m1, m2, m3]
  let inv_G := ∑ i : Fin 3, ∑ j : Fin 3, ∑ k : Fin 3, ∑ l : Fin 3,
    S_tensor S (i, j, k, l) * n_vec i * m_vec j * n_vec k * m_vec l
  1 / (4 * inv_G)

noncomputable def Poisson_4D (S : Fin 6 → Fin 6 → ℝ) (theta phi chi : ℝ) : ℝ :=
  let l1 := Real.sin theta * Real.cos phi
  let m1 := Real.sin theta * Real.sin phi
  let n1 := Real.cos theta
  let l2 := Real.cos chi * Real.cos theta * Real.cos phi - Real.sin chi * Real.sin phi
  let m2 := Real.cos chi * Real.cos theta * Real.sin phi + Real.sin chi * Real.cos phi
  let n2 := -(Real.cos chi) * Real.sin theta
  let a1 : Fin 6 → ℝ := ![l1 * l1, m1 * m1, n1 * n1, m1 * n1, l1 * n1, l1 * m1]
  let a2 : Fin 6 → ℝ := ![l2 * l2, m2 * m2, n2 * n2, m2 * n2, l2 * n2, l2 * m2]
  let num := (∑ i : Fin 6, ∑ j : Fin 6, S i j * a1 i * a2 j)
  let den := (∑ i : Fin 6, S i i * a1 i * a1 i)
  let ratio := -num / den
  ratio

noncomputable def linspace (a b : ℝ) (n : ℕ) : Fin n → ℝ := fun k =>
  if n = 1 then a else a + (k.val : ℝ) * (b - a) / ((n : ℝ) - 1)

noncomputable def npMin {n : ℕ} [NeZero n] (f : Fin n → ℝ) : ℝ :=
  Finset.univ.inf' Finset.univ_nonempty f

noncomputable def npMax {n : ℕ} [NeZero n] (f : Fin n → ℝ) : ℝ :=
  Finset.univ.sup' Finset.univ_nonempty f

noncomputable def npMean {n : ℕ} (f : Fin n → ℝ) : ℝ := (∑ c, f c) / n

noncomputable def Shear_3D_1d {p : ℕ} (S : Fin 6 → Fin 6 → ℝ) (theta phi : Fin p → ℝ) :
    (Fin p → ℝ) × (Fin p → ℝ) × (Fin p → ℝ) :=
  let G : Fin p → Fin 100 → ℝ := fun q c =>
    Shear_4D S (theta q) (phi q) (linspace (-Real.pi) Real.pi 100 c)
  (fun q => npMin (G q), fun q => npMean (G q), fun q => npMax (G q))

noncomputable def Shear_3D_2d {m n : ℕ} [NeZero n] (S : Fin 6 → Fin 6 → ℝ)
    (theta phi : Fin m → Fin n → ℝ) :
    (Fin m → Fin n → ℝ) × (Fin m → Fin n → ℝ) × (Fin m → Fin n → ℝ) :=
  let G : Fin m → Fin n → Fin n → ℝ := fun i j c =>
    Shear_4D S (theta i j) (phi i j) (linspace (-Real.pi) Real.pi n c)
  (fun i j => npMin (G i j), fun i j => npMean (G i j), fun i j => npMax (G i j))

noncomputable def Shear_3D_2d_spec {m n : ℕ} (S : Fin 6 → Fin 6 → ℝ)
    (theta phi : Fin m → Fin n → ℝ) :
    (Fin m → Fin n → ℝ) × (Fin m → Fin n → ℝ) × (Fin m → Fin n → ℝ) :=
  let G : Fin m → Fin n → Fin 100 → ℝ := fun i j c =>
    Shear_4D S (theta i j) (phi i j) (linspace (-Real.pi) Real.pi 100 c)
  (fun i j => npMin (G i j), fun i j => npMean (G i j), fun i j => npMax (G i j))

noncomputable def S0shear : Fin 6 → Fin 6 → ℝ := fun i j =>
  if i = 3 ∧ j = 3 then 2 else if i = 4 ∧ j = 4 then 1 else 0

def zeroGrid3 : Fin 3 → Fin 3 → ℝ := fun _ _ => 0

noncomputable def Shear_3D_1d_spec {p : ℕ} (S : Fin 6 → Fin 6 → ℝ)
    (theta phi : Fin p → ℝ) :
    (Fin p → ℝ) × (Fin p → ℝ) × (Fin p → ℝ) :=
  let G : Fin p → Fin 100 → ℝ := fun q c =>
    Shear_4D S (theta q) (phi q) (linspace (-Real.pi) Real.pi 100 c)
  (fun q => npMin (G q), fun q => npMean (G q), fun q => npMax (G q))

noncomputable def Poisson_3D_1d {p : ℕ} (S : Fin 6 → Fin 6 → ℝ) (theta phi : Fin p → ℝ) :
    (Fin p → ℝ) × (Fin p → ℝ) × (Fin p → ℝ) :=
  let v : Fin p → Fin 100 → ℝ := fun q c =>
    Poisson_4D S (theta q) (phi q) (linspace (-Real.pi) Real.pi 100 c)
  (fun q => npMin (v q), fun q => npMean (v q), fun q => npMax (v q))

noncomputable def Poisson_3D_2d {m n : ℕ} [NeZero n] (S : Fin 6 → Fin 6 → ℝ)
    (theta phi : Fin m → Fin n → ℝ) :
    (Fin m → Fin n → ℝ) × (Fin m → Fin n → ℝ) × (Fin m → Fin n → ℝ) :=
  let v : Fin m → Fin n → Fin n → ℝ := fun i j c =>
    Poisson_4D S (theta i j) (phi i j) (linspace (-Real.pi) Real.pi n c)
  (fun i j => npMin (v i j), fun i j => npMean (v i j), fun i j => npMax (v i j))

noncomputable def Poisson_3D_1d_spec {p : ℕ} (S : Fin 6 → Fin 6 → ℝ)
    (theta phi : Fin p → ℝ) :
    (Fin p → ℝ) × (Fin p → ℝ) × (Fin p → ℝ) :=
  let v : Fin p → Fin 100 → ℝ := fun q c =>
    Poisson_4D S (theta q) (phi q) (linspace (-Real.pi) Real.pi 100 c)
  (fun q => npMin (v q), fun q => npMean (v q), fun q => npMax (v q))

noncomputable def Poisson_3D_2d_spec {m n : ℕ} (S : Fin 6 → Fin 6 → ℝ)
    (theta phi : Fin m → Fin n → ℝ) :
    (Fin m → Fin n → ℝ) × (Fin m → Fin n → ℝ) × (Fin m → Fin n → ℝ) :=
  let v : Fin m → Fin n → Fin 100 → ℝ := fun i j c =>
    Poisson_4D S (theta i j) (phi i j) (linspace (-Real.pi) Real.pi 100 c)
  (fun i j => npMin (v i j), fun i j => npMean (v i j), fun i j => npMax (v i j))


/-! ## VRH bounds and anisotropy (C3): quadratic-form machinery -/

open Matrix

/-- The strain basis vector (1,1,1,0,0,0). -/
def e6 : Fin 6 → ℝ := fun i => if i.val < 3 then 1 else 0

noncomputable def d6 : Fin 6 → ℝ := fun i => if i.val < 3 then 1 else Real.sqrt 2

noncomputable def dinv6 : Fin 6 → ℝ := fun i => if i.val < 3 then 1 else (Real.sqrt 2)⁻¹

noncomputable def Dmat : Matrix (Fin 6) (Fin 6) ℝ := Matrix.diagonal d6

noncomputable def DinvMat : Matrix (Fin 6) (Fin 6) ℝ := Matrix.diagonal dinv6

def eeM : Matrix (Fin 6) (Fin 6) ℝ := Matrix.of fun i j => e6 i * e6 j

noncomputable def P6 : Matrix (Fin 6) (Fin 6) ℝ := 1 - (3⁻¹ : ℝ) • eeM

noncomputable def traceForm (M X Y : Matrix (Fin 6) (Fin 6) ℝ) : ℝ :=
  ∑ j : Fin 6, (fun i => X i j) ⬝ᵥ M *ᵥ (fun i => Y i j)

noncomputable def Chat (C : Matrix (Fin 6) (Fin 6) ℝ) : Matrix (Fin 6) (Fin 6) ℝ :=
  Dmat * C * Dmat

noncomputable def Shat (S : Matrix (Fin 6) (Fin 6) ℝ) : Matrix (Fin 6) (Fin 6) ℝ :=
  DinvMat * S * DinvMat

/-- The isotropic 6x6 stiffness pattern: `a` on the upper-left diagonal,
`b` off-diagonal in the upper-left 3x3 block, `(a-b)/2` on the shear
diagonal, zero elsewhere. -/
noncomputable def isoMat (a b : ℝ) : Matrix (Fin 6) (Fin 6) ℝ :=
  Matrix.of fun i j =>
    if i.val < 3 ∧ j.val < 3 then (if i = j then a else b)
    else if i = j then (a - b) / 2 else 0

/-- The explicit inverse of an isotropic stiffness matrix. -/
noncomputable def isoSinv (a b : ℝ) : Matrix (Fin 6) (Fin 6) ℝ :=
  Matrix.of fun i j =>
    if i.val < 3 ∧ j.val < 3 then
      (if i = j then (a + b) / ((a - b) * (a + 2 * b))
        else -b / ((a - b) * (a + 2 * b)))
    else if i = j then 2 / (a - b) else 0

/-- Elastic isotropy of a stiffness matrix. -/
def IsotropicC (C : Matrix (Fin 6) (Fin 6) ℝ) : Prop := ∃ a b : ℝ, C = isoMat a b

/-! ## Machinery theorems: functional updates and write lists -/

theorem mset_apply (C : CMat) (w : Idx) (v : ℚ) (p : Idx) :
    mset C w v p = if p = w then v else C p :=
  Function.update_apply C w v p

theorem applyWrites_nil {I V : Type} [DecidableEq I] (f : I → V) :
    applyWrites ([] : List (I × V)) f = f := rfl

theorem applyWrites_cons {I V : Type} [DecidableEq I] (w : I × V) (ws : List (I × V))
    (f : I → V) : applyWrites (w :: ws) f = applyWrites ws (Function.update f w.1 w.2) := rfl

theorem find?_append {α : Type} (p : α → Bool) (l₁ l₂ : List α) :
    (l₁ ++ l₂).find? p = (l₁.find? p).or (l₂.find? p) := by
  induction l₁ with
  | nil => simp
  | cons a l ih =>
    by_cases h : p a <;> simp [List.find?_cons, h, ih]

/-- Reading a position after a list of independent writes: the last write to
that position wins, otherwise the base function is read. -/
theorem applyWrites_apply {I V : Type} [DecidableEq I] (ws : List (I × V)) (f : I → V)
    (p : I) :
    applyWrites ws f p =
      ((ws.reverse.find? fun w => decide (w.1 = p)).map Prod.snd).getD (f p) := by
  induction ws generalizing f with
  | nil => rfl
  | cons w ws ih =>
    rw [applyWrites_cons, ih, List.reverse_cons, find?_append]
    cases hfind : ws.reverse.find? fun w => decide (w.1 = p) with
    | some q => simp [hfind]
    | none =>
      by_cases hw : w.1 = p
      · simp [hfind, hw, Function.update_apply]
      · simp [hfind, hw, Function.update_apply, Ne.symm hw]

/-! ## The symmetrisation pass -/

theorem symPairs_nodup : symPairs.Nodup := by decide

theorem symPairs_lt : ∀ q ∈ symPairs, q.1 < q.2 := by decide

theorem mem_symPairs : ∀ p : Idx, p.1 < p.2 → p ∈ symPairs := by decide

theorem symStep_untouched (C : CMat) (q p : Idx) (h1 : q ≠ p) (h2 : (q.2, q.1) ≠ p) :
    symStep C q p = C p := by
  have hp1 : p ≠ q := fun h => h1 h.symm
  have hp2 : p ≠ (q.2, q.1) := fun h => h2 h.symm
  unfold symStep
  split_ifs <;> simp [mset_apply, hp1, hp2]

theorem foldl_symStep_untouched (L : List Idx) (C : CMat) (p : Idx)
    (h : ∀ q ∈ L, q ≠ p ∧ (q.2, q.1) ≠ p) :
    L.foldl symStep C p = C p := by
  induction L generalizing C with
  | nil => rfl
  | cons a L ih =>
    rw [List.foldl_cons, ih (symStep C a) fun q hq => h q (List.mem_cons_of_mem _ hq)]
    exact symStep_untouched C a p (h a (List.mem_cons_self a L)).1
      (h a (List.mem_cons_self a L)).2

theorem symStep_self (C : CMat) (p : Idx) (hp : p.1 < p.2) :
    symStep C p p = (if C p ≠ 0 then C p else C (p.2, p.1)) ∧
    symStep C p (p.2, p.1) = (if C p ≠ 0 then C p else C (p.2, p.1)) := by
  have hne : p ≠ (p.2, p.1) := by
    intro h
    have h1 : p.1 = p.2 := congrArg Prod.fst h
    rw [h1] at hp
    exact lt_irrefl _ hp
  have hne2 : (p.2, p.1) ≠ p := fun h => hne h.symm
  unfold symStep
  refine ⟨?_, ?_⟩ <;> split_ifs with h1 h2
  · simp [mset_apply, hne]
  · simp [mset_apply]
  · exact (not_not.mp h1).trans (not_not.mp h2).symm
  · simp [mset_apply]
  · simp [mset_apply, hne2]
  · rfl

theorem symmetrizePass_apply (C : CMat) (p : Idx) (hp : p.1 < p.2) :
    symmetrizePass C p = (if C p ≠ 0 then C p else C (p.2, p.1)) ∧
    symmetrizePass C (p.2, p.1) = (if C p ≠ 0 then C p else C (p.2, p.1)) := by
  obtain ⟨L1, L2, hsplit⟩ := List.append_of_mem (mem_symPairs p hp)
  have hnd := symPairs_nodup
  rw [hsplit, List.nodup_append] at hnd
  obtain ⟨-, hnd2, hdisj⟩ := hnd
  have hpL1 : p ∉ L1 := fun hmem => hdisj hmem (List.mem_cons_self p L2)
  have hpL2 : p ∉ L2 := (List.nodup_cons.mp hnd2).1
  have hsub1 : ∀ q ∈ L1, q ∈ symPairs := fun q hq => hsplit ▸ List.mem_append_left _ hq
  have hsub2 : ∀ q ∈ L2, q ∈ symPairs := fun q hq =>
    hsplit ▸ List.mem_append_right _ (List.mem_cons_of_mem _ hq)
  have hcond : ∀ (M : List Idx), p ∉ M → (∀ q ∈ M, q ∈ symPairs) →
      ∀ q ∈ M, (q ≠ p ∧ (q.2, q.1) ≠ p) ∧
        (q ≠ (p.2, p.1) ∧ (q.2, q.1) ≠ (p.2, p.1)) := by
    intro M hpM hsubM q hq
    have hqlt := symPairs_lt q (hsubM q hq)
    have hqp : q ≠ p := fun h => hpM (h ▸ hq)
    refine ⟨⟨hqp, ?_⟩, ?_, ?_⟩
    · intro h
      rw [← h] at hp
      exact absurd hqlt (lt_asymm hp)
    · intro h
      rw [h] at hqlt
      exact absurd hp (lt_asymm hqlt)
    · intro h
      have h1 : q.2 = p.2 := congrArg Prod.fst h
      have h2 : q.1 = p.1 := congrArg Prod.snd h
      exact hqp (Prod.ext h2 h1)
  unfold symmetrizePass
  rw [hsplit, List.foldl_append, List.foldl_cons]
  have e1 : L1.foldl symStep C p = C p :=
    foldl_symStep_untouched L1 C p fun q hq => (hcond L1 hpL1 hsub1 q hq).1
  have e2 : L1.foldl symStep C (p.2, p.1) = C (p.2, p.1) :=
    foldl_symStep_untouched L1 C (p.2, p.1) fun q hq => (hcond L1 hpL1 hsub1 q hq).2
  constructor
  · rw [foldl_symStep_untouched L2 _ p fun q hq => (hcond L2 hpL2 hsub2 q hq).1,
      (symStep_self (L1.foldl symStep C) p hp).1, e1, e2]
  · rw [foldl_symStep_untouched L2 _ (p.2, p.1) fun q hq => (hcond L2 hpL2 hsub2 q hq).2,
      (symStep_self (L1.foldl symStep C) p hp).2, e1, e2]

theorem symmetrizePass_diag (C : CMat) (i : Fin 6) :
    symmetrizePass C (i, i) = C (i, i) := by
  apply foldl_symStep_untouched
  intro q hq
  have hqlt := symPairs_lt q hq
  constructor
  · intro h
    rw [h] at hqlt
    exact lt_irrefl _ hqlt
  · intro h
    have h1 : q.2 = i := congrArg Prod.fst h
    have h2 : q.1 = i := congrArg Prod.snd h
    rw [h1, h2] at hqlt
    exact lt_irrefl _ hqlt

/-- C10: in the initial symmetrisation pass of `fill_symmetric_matrix`, for
every strict upper-triangle position `(i, j)` the result is symmetric, and a
nonzero upper-triangle entry `C[i, j]` silently overwrites the lower-triangle
entry `C[j, i]` (even when both are nonzero and unequal); the lower-triangle
value is used only when the upper-triangle entry is exactly zero. -/
theorem symmetrize_upper_triangle_precedence (C : CMat) (i j : Fin 6) (hij : i < j) :
    symmetrizePass C (i, j) = symmetrizePass C (j, i) ∧
    symmetrizePass C (i, j) = (if C (i, j) = 0 then C (j, i) else C (i, j)) := by
  have h := symmetrizePass_apply C (i, j) hij
  have hflip : (if C (i, j) ≠ 0 then C (i, j) else C (j, i)) =
      (if C (i, j) = 0 then C (j, i) else C (i, j)) := by
    by_cases hc : C (i, j) = 0 <;> simp [hc]
  exact ⟨h.1.trans h.2.symm, h.1.trans hflip⟩

/-- Witness for C10 at a concrete matrix whose `(0, 1)` and `(1, 0)` entries
are nonzero and unequal. -/
theorem symmetrize_upper_triangle_precedence_witness :
    (0 : Fin 6) < 1 ∧
      (symmetrizePass C10Witness (0, 1) = symmetrizePass C10Witness (1, 0) ∧
       symmetrizePass C10Witness (0, 1) =
         (if C10Witness (0, 1) = 0 then C10Witness (1, 0) else C10Witness (0, 1))) :=
  ⟨by decide, symmetrize_upper_triangle_precedence C10Witness 0 1 (by decide)⟩

/-! ## The classification loop -/

theorem identifyGo_eq_find (C : CMat) (tol : ℚ) (l : List CrystalType) :
    identifyGo C tol l = (match l.find? (typeMatches C tol) with
      | some t => (t.id, t.name)
      | none => (10, "Triclinic")) := by
  induction l with
  | nil => rfl
  | cons t ts ih =>
    cases h : typeMatches C tol t with
    | true => simp [identifyGo, List.find?, h]
    | false => simp [identifyGo, List.find?, h, ih]

theorem probeMatrix_triclinic_apply (C : CMat) (p : Idx) :
    probeMatrix C triclinicIndependent p = if p.1 ≤ p.2 then C p else C (p.2, p.1) := by
  obtain ⟨a, b⟩ := p
  fin_cases a <;> fin_cases b <;> rfl

theorem fill_triclinic (X : CMat) : fill_symmetric_matrix X 10 true = symmetrizePass X := by
  simp [fill_symmetric_matrix]

theorem triclinic_matches (C : CMat) (tol : ℚ) (hsym : ∀ p : Idx, C p = C (p.2, p.1))
    (htol : 0 ≤ tol) :
    typeMatches C tol ⟨10, "Triclinic", triclinicIndependent⟩ = true := by
  have hprobe : ∀ p : Idx, probeMatrix C triclinicIndependent p = C p := by
    intro p
    rw [probeMatrix_triclinic_apply]
    split_ifs with h
    · rfl
    · exact (hsym p).symm
  have hfill : ∀ p : Idx,
      fill_symmetric_matrix (probeMatrix C triclinicIndependent) 10 true p = C p := by
    intro p
    rw [fill_triclinic]
    obtain ⟨a, b⟩ := p
    rcases lt_trichotomy a b with h | h | h
    · rw [(symmetrizePass_apply _ (a, b) h).1]
      show (if probeMatrix C triclinicIndependent (a, b) ≠ 0 then
        probeMatrix C triclinicIndependent (a, b) else
        probeMatrix C triclinicIndependent (b, a)) = C (a, b)
      rw [hprobe, hprobe]
      split_ifs with hc
      · rfl
      · exact (hsym (a, b)).symm
    · subst h
      exact (symmetrizePass_diag _ a).trans (hprobe _)
    · have h2 := (symmetrizePass_apply (probeMatrix C triclinicIndependent) (b, a) h).2
      rw [h2]
      show (if probeMatrix C triclinicIndependent (b, a) ≠ 0 then
        probeMatrix C triclinicIndependent (b, a) else
        probeMatrix C triclinicIndependent (a, b)) = C (a, b)
      rw [hprobe, hprobe]
      split_ifs with hc
      · exact (hsym (a, b)).symm
      · rfl
  rw [typeMatches, allclose, decide_eq_true_eq]
  intro p
  show |C p - fill_symmetric_matrix (probeMatrix C triclinicIndependent) 10 true p| ≤ _
  rw [hfill, sub_self, abs_zero]
  have := mul_nonneg htol (abs_nonneg (C p))
  linarith

/-- C1: `identify_crystal_type` tests the candidate classes in the fixed
stable-sorted ascending order of independent-constant count — Cubic,
Hexagonal, Tetragonal_1, Trigonal_1, Tetragonal_2, Trigonal_2, Orthorhombic,
Monoclinic_1, Monoclinic_2, Triclinic — and returns the id and name of the
first class whose probe-extract-then-complete reconstruction is `allclose`
to the input at the given tolerance; for a symmetric input and a nonnegative
tolerance the Triclinic candidate always matches, so a first match always
exists and the function is total (the post-loop fallback is never reached). -/
theorem identify_crystal_type_ordered_first_match (C : CMat) (tol : ℚ)
    (hsym : ∀ p : Idx, C p = C (p.2, p.1)) (htol : 0 ≤ tol) :
    sortedTypes.map (fun t => (t.id, t.name)) =
      [(1, "Cubic"), (5, "Hexagonal"), (2, "Tetragonal_1"), (6, "Trigonal_1"),
       (3, "Tetragonal_2"), (7, "Trigonal_2"), (4, "Orthorhombic"),
       (8, "Monoclinic_1"), (9, "Monoclinic_2"), (10, "Triclinic")] ∧
    typeMatches C tol ⟨10, "Triclinic", triclinicIndependent⟩ = true ∧
    ∃ t : CrystalType, sortedTypes.find? (typeMatches C tol) = some t ∧
      identify_crystal_type C tol = (t.id, t.name) := by
  refine ⟨by decide, triclinic_matches C tol hsym htol, ?_⟩
  cases hfind : sortedTypes.find? (typeMatches C tol) with
  | none =>
    rw [List.find?_eq_none] at hfind
    exact absurd (triclinic_matches C tol hsym htol)
      (by simpa using hfind ⟨10, "Triclinic", triclinicIndependent⟩ (by decide))
  | some t =>
    exact ⟨t, rfl, by rw [identify_crystal_type, identifyGo_eq_find, hfind]⟩

/-- Witness for C1 at a concrete symmetric matrix and the default tolerance. -/
theorem identify_crystal_type_ordered_first_match_witness :
    ((∀ p : Idx, C1Witness p = C1Witness (p.2, p.1)) ∧ (0 : ℚ) ≤ 1e-6) ∧
      (sortedTypes.map (fun t => (t.id, t.name)) =
        [(1, "Cubic"), (5, "Hexagonal"), (2, "Tetragonal_1"), (6, "Trigonal_1"),
         (3, "Tetragonal_2"), (7, "Trigonal_2"), (4, "Orthorhombic"),
         (8, "Monoclinic_1"), (9, "Monoclinic_2"), (10, "Triclinic")] ∧
       typeMatches C1Witness 1e-6 ⟨10, "Triclinic", triclinicIndependent⟩ = true ∧
       ∃ t : CrystalType, sortedTypes.find? (typeMatches C1Witness 1e-6) = some t ∧
         identify_crystal_type C1Witness 1e-6 = (t.id, t.name)) :=
  ⟨⟨by decide, by decide⟩,
    identify_crystal_type_ordered_first_match C1Witness 1e-6 (by decide) (by decide)⟩

/-! ## The symmetry round-trip (C2) -/

set_option maxRecDepth 10000 in
set_option maxHeartbeats 1000000 in
/-- C2 counterexample: pairwise-distinct nonzero values at exactly the
Tetragonal_1 independent positions for which `fill_symmetric_matrix` followed
by `identify_crystal_type` returns Hexagonal, a more restrictive class, not
Tetragonal_1 (the values satisfy the coincidence `C66 = (C11 - C12) / 2`, so
the completed matrix is also an exact Hexagonal matrix, and Hexagonal is
tested first). -/
theorem symmetry_roundtrip_counterexample :
    validAssignment exTet1Coincidence (typeOf3D 2) ∧
    identify_crystal_type (fill_symmetric_matrix exTet1Coincidence 2 true) 1e-6 =
      (5, "Hexagonal") ∧
    identify_crystal_type (fill_symmetric_matrix exTet1Coincidence 2 true) 1e-6 ≠
      (2, "Tetragonal_1") := by
  refine ⟨by decide, by decide, by decide⟩

set_option maxRecDepth 40000 in
set_option maxHeartbeats 4000000 in
theorem roundtrip3D_cubic : validAssignment exCubic (typeOf3D 1) ∧
    identify_crystal_type (fill_symmetric_matrix exCubic 1 true) 1e-6 = (1, "Cubic") := by
  decide

set_option maxRecDepth 40000 in
set_option maxHeartbeats 4000000 in
theorem roundtrip3D_hexagonal : validAssignment exHexagonal (typeOf3D 5) ∧
    identify_crystal_type (fill_symmetric_matrix exHexagonal 5 true) 1e-6 = (5, "Hexagonal") := by
  decide

set_option maxRecDepth 40000 in
set_option maxHeartbeats 4000000 in
theorem roundtrip3D_tet1 : validAssignment exTet1 (typeOf3D 2) ∧
    identify_crystal_type (fill_symmetric_matrix exTet1 2 true) 1e-6 = (2, "Tetragonal_1") := by
  decide

set_option maxRecDepth 40000 in
set_option maxHeartbeats 4000000 in
theorem roundtrip3D_trig1 : validAssignment exTrig1 (typeOf3D 6) ∧
    identify_crystal_type (fill_symmetric_matrix exTrig1 6 true) 1e-6 = (6, "Trigonal_1") := by
  decide

set_option maxRecDepth 40000 in
set_option maxHeartbeats 4000000 in
theorem roundtrip3D_tet2 : validAssignment exTet2 (typeOf3D 3) ∧
    identify_crystal_type (fill_symmetric_matrix exTet2 3 true) 1e-6 = (3, "Tetragonal_2") := by
  decide

set_option maxRecDepth 40000 in
set_option maxHeartbeats 4000000 in
theorem roundtrip3D_trig2 : validAssignment exTrig2 (typeOf3D 7) ∧
    identify_crystal_type (fill_symmetric_matrix exTrig2 7 true) 1e-6 = (7, "Trigonal_2") := by
  decide

set_option maxRecDepth 40000 in
set_option maxHeartbeats 4000000 in
theorem roundtrip3D_ortho : validAssignment exOrtho (typeOf3D 4) ∧
    identify_crystal_type (fill_symmetric_matrix exOrtho 4 true) 1e-6 = (4, "Orthorhombic") := by
  decide

set_option maxRecDepth 40000 in
set_option maxHeartbeats 4000000 in
theorem roundtrip3D_mono1 : validAssignment exMono1 (typeOf3D 8) ∧
    identify_crystal_type (fill_symmetric_matrix exMono1 8 true) 1e-6 = (8, "Monoclinic_1") := by
  decide

set_option maxRecDepth 40000 in
set_option maxHeartbeats 4000000 in
theorem roundtrip3D_mono2 : validAssignment exMono2 (typeOf3D 9) ∧
    identify_crystal_type (fill_symmetric_matrix exMono2 9 true) 1e-6 = (9, "Monoclinic_2") := by
  decide

set_option maxRecDepth 40000 in
set_option maxHeartbeats 4000000 in
theorem roundtrip3D_triclinic : validAssignment exTriclinic (typeOf3D 10) ∧
    identify_crystal_type (fill_symmetric_matrix exTriclinic 10 true) 1e-6 = (10, "Triclinic") := by
  decide

set_option maxRecDepth 40000 in
set_option maxHeartbeats 4000000 in
theorem roundtrip2D_hexagonal2d : validAssignment ex2DHexagonal (typeOf2D 1) ∧
    detect_crystal_type_2d (fill_symmetric_matrix ex2DHexagonal 1 false) = (1, "Hexagonal") := by
  decide

set_option maxRecDepth 40000 in
set_option maxHeartbeats 4000000 in
theorem roundtrip2D_square2d : validAssignment ex2DSquare (typeOf2D 2) ∧
    detect_crystal_type_2d (fill_symmetric_matrix ex2DSquare 2 false) = (2, "Square") := by
  decide

set_option maxRecDepth 40000 in
set_option maxHeartbeats 4000000 in
theorem roundtrip2D_rect2d : validAssignment ex2DRectangular (typeOf2D 3) ∧
    detect_crystal_type_2d (fill_symmetric_matrix ex2DRectangular 3 false) = (3, "Rectangular") := by
  decide

set_option maxRecDepth 40000 in
set_option maxHeartbeats 4000000 in
theorem roundtrip2D_oblique2d : validAssignment ex2DOblique (typeOf2D 4) ∧
    detect_crystal_type_2d (fill_symmetric_matrix ex2DOblique 4 false) = (4, "Oblique") := by
  decide

/-- C2 amended: the universally-quantified round-trip fails (see the
counterexample), but for every crystal class — all 10 three-dimensional ones
under `identify_crystal_type` and all 4 two-dimensional ones under the GUI's
`detect_crystal_type_2d` heuristic — there exists an assignment of
pairwise-distinct nonzero values to exactly that class's independent
positions whose completion is identified as exactly that class. -/
theorem symmetry_roundtrip_exists_for_every_class :
    (validAssignment exCubic (typeOf3D 1) ∧
      identify_crystal_type (fill_symmetric_matrix exCubic 1 true) 1e-6 = (1, "Cubic")) ∧
    (validAssignment exHexagonal (typeOf3D 5) ∧
      identify_crystal_type (fill_symmetric_matrix exHexagonal 5 true) 1e-6 = (5, "Hexagonal")) ∧
    (validAssignment exTet1 (typeOf3D 2) ∧
      identify_crystal_type (fill_symmetric_matrix exTet1 2 true) 1e-6 = (2, "Tetragonal_1")) ∧
    (validAssignment exTrig1 (typeOf3D 6) ∧
      identify_crystal_type (fill_symmetric_matrix exTrig1 6 true) 1e-6 = (6, "Trigonal_1")) ∧
    (validAssignment exTet2 (typeOf3D 3) ∧
      identify_crystal_type (fill_symmetric_matrix exTet2 3 true) 1e-6 = (3, "Tetragonal_2")) ∧
    (validAssignment exTrig2 (typeOf3D 7) ∧
      identify_crystal_type (fill_symmetric_matrix exTrig2 7 true) 1e-6 = (7, "Trigonal_2")) ∧
    (validAssignment exOrtho (typeOf3D 4) ∧
      identify_crystal_type (fill_symmetric_matrix exOrtho 4 true) 1e-6 = (4, "Orthorhombic")) ∧
    (validAssignment exMono1 (typeOf3D 8) ∧
      identify_crystal_type (fill_symmetric_matrix exMono1 8 true) 1e-6 = (8, "Monoclinic_1")) ∧
    (validAssignment exMono2 (typeOf3D 9) ∧
      identify_crystal_type (fill_symmetric_matrix exMono2 9 true) 1e-6 = (9, "Monoclinic_2")) ∧
    (validAssignment exTriclinic (typeOf3D 10) ∧
      identify_crystal_type (fill_symmetric_matrix exTriclinic 10 true) 1e-6 = (10, "Triclinic")) ∧
    (validAssignment ex2DHexagonal (typeOf2D 1) ∧
      detect_crystal_type_2d (fill_symmetric_matrix ex2DHexagonal 1 false) = (1, "Hexagonal")) ∧
    (validAssignment ex2DSquare (typeOf2D 2) ∧
      detect_crystal_type_2d (fill_symmetric_matrix ex2DSquare 2 false) = (2, "Square")) ∧
    (validAssignment ex2DRectangular (typeOf2D 3) ∧
      detect_crystal_type_2d (fill_symmetric_matrix ex2DRectangular 3 false) = (3, "Rectangular")) ∧
    (validAssignment ex2DOblique (typeOf2D 4) ∧
      detect_crystal_type_2d (fill_symmetric_matrix ex2DOblique 4 false) = (4, "Oblique")) :=
  ⟨roundtrip3D_cubic, roundtrip3D_hexagonal, roundtrip3D_tet1, roundtrip3D_trig1, roundtrip3D_tet2, roundtrip3D_trig2, roundtrip3D_ortho, roundtrip3D_mono1, roundtrip3D_mono2, roundtrip3D_triclinic, roundtrip2D_hexagonal2d, roundtrip2D_square2d, roundtrip2D_rect2d, roundtrip2D_oblique2d⟩

/-! ## Out-of-bounds behaviour of 2D completion on a 3x3 array (C9) -/

theorem exceptBind_ok {e a b : Type} (x : a) (f : a → Except e b) :
    (Except.ok x : Except e a) >>= f = f x := rfl

theorem NMat.get_ok {a : Type} (M : NMat a) {i j : ℕ} (h : i < M.rows ∧ j < M.cols) :
    M.get i j = .ok (M.entry i j) := by rw [NMat.get, if_pos h]

theorem NMat.set_ok {a : Type} (M : NMat a) {i j : ℕ} (v : a)
    (h : i < M.rows ∧ j < M.cols) :
    M.set i j v =
      .ok ⟨M.rows, M.cols, fun x y => if x = i ∧ y = j then v else M.entry x y⟩ := by
  rw [NMat.set, if_pos h]

theorem symStepChecked_ok {M : NMat ℚ} {i j : ℕ}
    (hij : i < M.rows ∧ j < M.cols) (hji : j < M.rows ∧ i < M.cols) :
    ∃ N, symStepChecked M i j = .ok N ∧ N.rows = M.rows ∧ N.cols = M.cols := by
  unfold symStepChecked
  rw [NMat.get_ok M hij]
  show ∃ N, (if M.entry i j ≠ 0 then M.set j i (M.entry i j)
    else do
      let vji ← M.get j i
      if vji ≠ 0 then M.set i j vji else pure M) = .ok N ∧ N.rows = M.rows ∧ N.cols = M.cols
  split_ifs with h1
  · rw [NMat.set_ok M _ hji]
    exact ⟨_, rfl, rfl, rfl⟩
  · rw [NMat.get_ok M hji]
    show ∃ N, (if M.entry j i ≠ 0 then M.set i j (M.entry j i) else pure M) =
      .ok N ∧ N.rows = M.rows ∧ N.cols = M.cols
    split_ifs with h2
    · rw [NMat.set_ok M _ hij]
      exact ⟨_, rfl, rfl, rfl⟩
    · exact ⟨M, rfl, rfl, rfl⟩

theorem foldlM_symStepChecked_ok (L : List (ℕ × ℕ)) :
    ∀ M : NMat ℚ,
      (∀ p ∈ L, p.1 < M.rows ∧ p.2 < M.cols ∧ p.2 < M.rows ∧ p.1 < M.cols) →
      ∃ N, L.foldlM (fun A p => symStepChecked A p.1 p.2) M = .ok N ∧
        N.rows = M.rows ∧ N.cols = M.cols := by
  induction L with
  | nil => exact fun M _ => ⟨M, rfl, rfl, rfl⟩
  | cons p L ih =>
    intro M h
    have hp := h p (List.mem_cons_self p L)
    obtain ⟨M1, h1, hr1, hc1⟩ := symStepChecked_ok (M := M) (i := p.1) (j := p.2)
      ⟨hp.1, hp.2.1⟩ ⟨hp.2.2.1, hp.2.2.2⟩
    obtain ⟨M2, h2, hr2, hc2⟩ := ih M1 (fun q hq => by
      rw [hr1, hc1]
      exact h q (List.mem_cons_of_mem _ hq))
    refine ⟨M2, ?_, hr2.trans hr1, hc2.trans hc1⟩
    rw [List.foldlM_cons, h1, exceptBind_ok]
    exact h2

theorem symmetrizePassChecked_3x3 (M : NMat ℚ) (hr : M.rows = 3) (hc : M.cols = 3) :
    ∃ N, symmetrizePassChecked M = .ok N ∧ N.rows = 3 ∧ N.cols = 3 := by
  have hlist : ((List.range M.rows).flatMap fun i =>
      ((List.range M.cols).filter fun j => decide (i < j)).map fun j => (i, j)) =
      [(0, 1), (0, 2), (1, 2)] := by rw [hr, hc]; rfl
  unfold symmetrizePassChecked
  rw [hlist]
  obtain ⟨N, h, hrN, hcN⟩ := foldlM_symStepChecked_ok [(0, 1), (0, 2), (1, 2)] M
    (by
      intro p hp
      rw [hr, hc]
      fin_cases hp <;> exact ⟨by norm_num, by norm_num, by norm_num, by norm_num⟩)
  exact ⟨N, h, hrN.trans hr, hcN.trans hc⟩

/-- C9 amended: `fill_symmetric_matrix` in 2D mode applied to an actual 3x3
in-plane matrix raises an out-of-bounds `IndexError` for Hexagonal-2D
(whose completion writes `C66` at index `(5, 5)`), but not for Square-2D:
its only completion rule writes `C22` at index `(1, 1)`, which is in bounds,
so the Square-2D call completes normally on a 3x3 array. -/
theorem fill2d_checked_on_3x3 (M : NMat ℚ) (hr : M.rows = 3) (hc : M.cols = 3) :
    fill_symmetric_matrix_checked M 1 false = .error "IndexError" ∧
    ∃ N, fill_symmetric_matrix_checked M 2 false = .ok N ∧ N.rows = 3 ∧ N.cols = 3 := by
  obtain ⟨Mp, hp, hpr, hpc⟩ := symmetrizePassChecked_3x3 M hr hc
  obtain ⟨pr, pc, g⟩ := Mp
  simp only [NMat.rows, NMat.cols] at hpr hpc
  subst hpr
  subst hpc
  constructor
  · unfold fill_symmetric_matrix_checked
    rw [hp]
    rfl
  · refine ⟨⟨3, 3, fun x y => if x = 1 ∧ y = 1 then g 0 0 else g x y⟩, ?_, rfl, rfl⟩
    unfold fill_symmetric_matrix_checked
    rw [hp]
    rfl

/-- Witness for the amended C9 theorem at the concrete 3x3 example matrix. -/
theorem fill2d_checked_on_3x3_witness :
    ex2D3x3.rows = 3 ∧ ex2D3x3.cols = 3 ∧
      (fill_symmetric_matrix_checked ex2D3x3 1 false = .error "IndexError" ∧
       ∃ N, fill_symmetric_matrix_checked ex2D3x3 2 false = .ok N ∧
         N.rows = 3 ∧ N.cols = 3) :=
  ⟨rfl, rfl, fill2d_checked_on_3x3 ex2D3x3 rfl rfl⟩

/-- C9 counterexample: on the concrete 3x3 in-plane matrix, the Square-2D
completion does NOT fail with an out-of-bounds error — it completes normally
(only the Hexagonal-2D branch indexes `(5, 5)`). -/
theorem fill2d_square_3x3_no_error :
    ex2D3x3.rows = 3 ∧ ex2D3x3.cols = 3 ∧
    exceptOk (fill_symmetric_matrix_checked ex2D3x3 2 false) = true :=
  ⟨rfl, rfl, rfl⟩

/-! ## Shape errors in the stability check (C6) and the 2D embedding
round-trip (C7) -/

theorem unstable3_not_bornStable :
    ¬ bornStable (Matrix.of fun i j : Fin 3 => unstable3.entry i j) := by
  intro h
  have hmem : (-1 : ℂ) ∈ eigvals (Matrix.of fun i j : Fin 3 => unstable3.entry i j) := by
    have hmap : ((Matrix.of fun i j : Fin 3 => unstable3.entry i j).map (Complex.ofReal ·)) =
        Matrix.diagonal fun _ => (-1 : ℂ) := by
      ext i j
      by_cases hij : i = j
      · subst hij
        simp [Matrix.map_apply, Matrix.diagonal_apply_eq, unstable3, Matrix.of_apply]
      · simp [Matrix.map_apply, Matrix.diagonal_apply_ne _ hij, unstable3, Matrix.of_apply,
          Fin.val_eq_val, hij]
    have hcm : Matrix.charmatrix (Matrix.diagonal fun _ : Fin 3 => (-1 : ℂ)) =
        Matrix.diagonal fun _ : Fin 3 => (Polynomial.X - Polynomial.C (-1)) := by
      ext i j
      by_cases hij : i = j
      · subst hij
        rw [Matrix.charmatrix_apply_eq, Matrix.diagonal_apply_eq, Matrix.diagonal_apply_eq]
      · rw [Matrix.charmatrix_apply_ne _ _ _ hij, Matrix.diagonal_apply_ne _ hij,
          Matrix.diagonal_apply_ne _ hij, map_zero, neg_zero]
    have hch : (Matrix.diagonal fun _ : Fin 3 => (-1 : ℂ)).charpoly =
        (Polynomial.X - Polynomial.C (-1)) ^ 3 := by
      rw [Matrix.charpoly, hcm, Matrix.det_diagonal]
      rw [Finset.prod_const, Finset.card_univ, Fintype.card_fin]
    rw [eigvals, hmap, hch, Polynomial.roots_pow, Polynomial.roots_X_sub_C,
      Multiset.mem_nsmul]
    exact ⟨by norm_num, Multiset.mem_singleton_self _⟩
  have hpos := h _ hmem
  simp only [Complex.neg_re, Complex.one_re] at hpos
  linarith

/-- C6 amended: for a non-square input, or a square input that is neither
3x3 nor 6x6, `check_stability_detailed` reports the error to the caller
(non-empty `message`, `stable = False`) and aborts with no partial results
(`eigenvalues = None`), while `StableofMechanical` prints a diagnostic but
returns the plain boolean `False` — by return value indistinguishable from
an unstable verdict. -/
theorem stability_shape_error_reporting (M : NMat ℝ) (d : Bool)
    (h : M.rows ≠ M.cols ∨ (M.rows = M.cols ∧ M.cols ≠ 3 ∧ M.cols ≠ 6)) :
    (StableofMechanical M).2 = false ∧ (StableofMechanical M).1 ≠ [] ∧
    (check_stability_detailed M d).stable = false ∧
    (check_stability_detailed M d).eigenvalues = none ∧
    (check_stability_detailed M d).message ≠ "" := by
  rcases h with h | ⟨hsq, h3, h6⟩
  · unfold StableofMechanical check_stability_detailed
    rw [if_pos h, if_pos h]
    exact ⟨rfl, by simp, rfl, rfl, by simp⟩
  · have hns : ¬ M.rows ≠ M.cols := not_not.mpr hsq
    unfold StableofMechanical check_stability_detailed
    rw [if_neg hns, if_neg h6, if_pos h3, if_neg hns, if_pos ⟨h6, h3⟩]
    exact ⟨rfl, by simp, rfl, rfl, by simp⟩

/-- Witness for the amended C6 theorem at a concrete 2x3 input. -/
theorem stability_shape_error_reporting_witness :
    (bad23.rows ≠ bad23.cols ∨ (bad23.rows = bad23.cols ∧ bad23.cols ≠ 3 ∧ bad23.cols ≠ 6)) ∧
      ((StableofMechanical bad23).2 = false ∧ (StableofMechanical bad23).1 ≠ [] ∧
       (check_stability_detailed bad23 false).stable = false ∧
       (check_stability_detailed bad23 false).eigenvalues = none ∧
       (check_stability_detailed bad23 false).message ≠ "") :=
  ⟨Or.inl (by decide), stability_shape_error_reporting bad23 false (Or.inl (by decide))⟩

open Classical in
/-- C6 counterexample: `StableofMechanical` on a non-square 2x3 input
returns the boolean `False` — exactly the value it returns for a genuinely
unstable 3x3 material — rather than reporting an error to its caller. -/
theorem stability_shape_error_counterexample :
    bad23.rows ≠ bad23.cols ∧
    (StableofMechanical bad23).2 = false ∧
    (StableofMechanical unstable3).2 = false := by
  refine ⟨by decide, ?_, ?_⟩
  · unfold StableofMechanical
    rw [if_pos (show bad23.rows ≠ bad23.cols by decide)]
  · unfold StableofMechanical
    rw [if_neg (show ¬ unstable3.rows ≠ unstable3.cols from fun h => h rfl),
      if_neg (show ¬ unstable3.cols = 6 by decide),
      if_neg (show ¬ unstable3.cols ≠ 3 from fun h => h rfl)]
    show decide (bornStable (Matrix.of fun i j : Fin 3 => unstable3.entry i j)) = false
    rw [decide_eq_false_iff_not]
    exact unstable3_not_bornStable

theorem mat3ToNMat_entries (B : Matrix (Fin 3) (Fin 3) ℝ) :
    (Matrix.of fun i j : Fin 3 => (mat3ToNMat B).entry i j) = B := by
  ext i j
  have h : (i : ℕ) < 3 ∧ (j : ℕ) < 3 := ⟨i.isLt, j.isLt⟩
  simp only [Matrix.of_apply, mat3ToNMat, dif_pos h, Fin.eta]

open Classical in
/-- C7: embedding any 3x3 in-plane stiffness matrix into a 6x6 via `D2toD3`
places the block at rows/columns `{0, 1, 5}` with zeros elsewhere, so the
stability check's automatic 2D reduction fires (rows/columns 2..4 all zero),
the reduced 3x3 block is exactly the original matrix, the eigenvalues of the
reduced matrix are identical to those of the direct 3x3 input, and
`StableofMechanical` returns the same verdict on the 6x6 embedding as on the
3x3 matrix itself. -/
theorem embed_2d_stability_roundtrip (B : Matrix (Fin 3) (Fin 3) ℝ) :
    D2toD3 (mat3ToNMat B) = .ok (d2tod3Result B) ∧
    (∀ i j : Fin 3, (d2tod3Result B).entry (i.val + 2) (j.val + 2) = 0) ∧
    reduce015 (d2tod3Result B) = B ∧
    eigvals (reduce015 (d2tod3Result B)) =
      eigvals (Matrix.of fun i j : Fin 3 => (mat3ToNMat B).entry i j) ∧
    StableofMechanical (d2tod3Result B) = StableofMechanical (mat3ToNMat B) := by
  have hok : D2toD3 (mat3ToNMat B) = .ok (d2tod3Result B) := by
    simp [d2tod3Result, D2toD3, mat3ToNMat, Except.toOption]
  have hzero : ∀ i j : Fin 3, (d2tod3Result B).entry (i.val + 2) (j.val + 2) = 0 := by
    intro i j
    fin_cases i <;> fin_cases j <;>
      simp [d2tod3Result, D2toD3, mat3ToNMat, applyWrites, Function.update,
        Except.toOption, List.range_succ, List.flatMap_cons, List.flatMap_nil]
  have hrows : (d2tod3Result B).rows = 6 := by
    simp [d2tod3Result, D2toD3, mat3ToNMat, Except.toOption]
  have hcols : (d2tod3Result B).cols = 6 := by
    simp [d2tod3Result, D2toD3, mat3ToNMat, Except.toOption]
  have hred : reduce015 (d2tod3Result B) = B := by
    ext i j
    fin_cases i <;> fin_cases j <;>
      simp [reduce015, d2tod3Result, D2toD3, mat3ToNMat, applyWrites, Function.update,
        Except.toOption, List.range_succ, List.flatMap_cons, List.flatMap_nil]
  have hmat3 := mat3ToNMat_entries B
  refine ⟨hok, hzero, hred, by rw [hred, hmat3], ?_⟩
  have hz : ∀ i j : Fin 3, |(d2tod3Result B).entry (i.val + 2) (j.val + 2)| ≤ 1e-8 := by
    intro i j
    rw [hzero i j, abs_zero]
    norm_num
  calc StableofMechanical (d2tod3Result B)
      = ([], decide (bornStable (reduce015 (d2tod3Result B)))) := by
        unfold StableofMechanical
        rw [if_neg (show ¬ (d2tod3Result B).rows ≠ (d2tod3Result B).cols from by
          rw [hrows, hcols]; exact fun h => h rfl)]
        rw [if_pos hcols, if_pos hz]
    _ = ([], decide (bornStable B)) := by rw [hred]
    _ = StableofMechanical (mat3ToNMat B) := by
        unfold StableofMechanical
        rw [if_neg (show ¬ (mat3ToNMat B).rows ≠ (mat3ToNMat B).cols from fun h => h rfl),
          if_neg (show ¬ (mat3ToNMat B).cols = 6 from by norm_num [mat3ToNMat]),
          if_neg (show ¬ (mat3ToNMat B).cols ≠ 3 from fun h => h rfl), hmat3]

/-! ## Singular stiffness matrices in VRH averaging (C4) -/

/-- C4 amended: for a singular 6x6 stiffness matrix, the 3D VRH averaging
fails atomically — the `LinAlgError` propagates and no result record is
produced — but the 2D VRH averaging catches the singular in-plane block,
substitutes a zero compliance matrix, and returns a full result record (with
`K_R = 0` from the zero-denominator guard) instead of failing. -/
theorem vrh_singular_behaviour (C3 : Matrix (Fin 6) (Fin 6) ℝ)
    (C2 : Matrix (Fin 6) (Fin 6) ℚ)
    (h3 : ¬ IsUnit C3.det) (h2 : (planar C2).det = 0) :
    ElasticVRH3D C3 = .error "Singular matrix" ∧
    ∃ r : VRH2DResult, ElasticVRH2D C2 = .ok r ∧ r.K_R = 0 := by
  constructor
  · unfold ElasticVRH3D npInv6
    rw [if_neg h3]
    rfl
  · have hinv : npInv3Q (planar C2) = .error "Singular matrix" := by
      unfold npInv3Q
      rw [if_neg (not_not.mpr h2)]
    refine ⟨_, rfl, ?_⟩
    simp [hinv]

/-- Witness for the amended C4 theorem at the zero matrix (singular in both
the 6x6 and the planar sense). -/
theorem vrh_singular_behaviour_witness :
    (¬ IsUnit (0 : Matrix (Fin 6) (Fin 6) ℝ).det ∧
      (planar (0 : Matrix (Fin 6) (Fin 6) ℚ)).det = 0) ∧
    (ElasticVRH3D 0 = .error "Singular matrix" ∧
      ∃ r : VRH2DResult, ElasticVRH2D 0 = .ok r ∧ r.K_R = 0) := by
  have hdet3 : ¬ IsUnit (0 : Matrix (Fin 6) (Fin 6) ℝ).det := by
    rw [Matrix.det_zero (by exact ⟨0⟩)]
    exact not_isUnit_zero
  have hdet2 : (planar (0 : Matrix (Fin 6) (Fin 6) ℚ)).det = 0 := by
    have h0 : planar (0 : Matrix (Fin 6) (Fin 6) ℚ) = 0 := by
      ext i j
      simp [planar]
    rw [h0]
    exact Matrix.det_zero (by exact ⟨0⟩)
  exact ⟨⟨hdet3, hdet2⟩, vrh_singular_behaviour 0 0 hdet3 hdet2⟩

/-- C4 counterexample: for the zero stiffness matrix — whose in-plane 3x3
block is singular — the 2D VRH averaging does NOT fail: the error is caught
inside `ElasticVRH2D` and a result record is produced. -/
theorem vrh2d_singular_returns_result :
    (planar (0 : Matrix (Fin 6) (Fin 6) ℚ)).det = 0 ∧
    exceptOk (ElasticVRH2D 0) = true := by
  refine ⟨?_, rfl⟩
  have h0 : planar (0 : Matrix (Fin 6) (Fin 6) ℚ) = 0 := by
    ext i j
    simp [planar]
  rw [h0]
  exact Matrix.det_zero (by exact ⟨0⟩)

/-! ## The angle/direction round-trip (C8) -/

/-- C8 amended: for a unit vector whose xy-projection norm exceeds the
`1e-10` mask threshold AND which has `|x| ≥ 1e-10` or `|y| ≥ 1e-10` (so
that the origin override `phi = 0` does not fire),
`Ang2Direction ∘ Direction2Ang` is the exact identity. The extra condition
is necessary: see the counterexample, where `rxy > 1e-10` holds but both
`|x|` and `|y|` lie below `1e-10` and the round trip is not the identity. -/
theorem ang_direction_roundtrip (x y z : ℝ)
    (hunit : x ^ 2 + y ^ 2 + z ^ 2 = 1)
    (hxy : Real.sqrt (x ^ 2 + y ^ 2) > 1e-10)
    (hbig : 1e-10 ≤ |x| ∨ 1e-10 ≤ |y|) :
    Ang2Direction (Direction2Ang x y z).1 (Direction2Ang x y z).2 = (x, y, z) := by
  have h10 : (0 : ℝ) < 1e-10 := by norm_num
  have hrpos : 0 < Real.sqrt (x ^ 2 + y ^ 2) := lt_trans h10 hxy
  set rxy := Real.sqrt (x ^ 2 + y ^ 2) with hrxy
  have hrne : rxy ≠ 0 := ne_of_gt hrpos
  have hrxysq : rxy ^ 2 = x ^ 2 + y ^ 2 := Real.sq_sqrt (by positivity)
  have habsx : |x| ≤ rxy := by
    rw [← Real.sqrt_sq_eq_abs, hrxy]
    exact Real.sqrt_le_sqrt (by nlinarith [sq_nonneg y])
  have hxr1 : |x / rxy| ≤ 1 := by
    rw [abs_div, abs_of_pos hrpos, div_le_one hrpos]
    exact habsx
  have hxlo : -1 ≤ x / rxy := (abs_le.mp hxr1).1
  have hxhi : x / rxy ≤ 1 := (abs_le.mp hxr1).2
  have hclip : min (max (x / rxy) (-1)) 1 = x / rxy := by
    rw [max_eq_left hxlo, min_eq_left hxhi]
  have hno : ¬ (|x| < 1e-10 ∧ |y| < 1e-10) := by
    rintro ⟨h1, h2⟩
    rcases hbig with h | h <;> linarith
  have hz1 : -1 ≤ z := by nlinarith [sq_nonneg x, sq_nonneg y, sq_nonneg (z + 1)]
  have hz2 : z ≤ 1 := by nlinarith [sq_nonneg x, sq_nonneg y, sq_nonneg (z - 1)]
  have hsin : Real.sin (Real.arccos z) = rxy := by
    rw [Real.sin_arccos, hrxy]
    congr 1
    linarith
  have hcosphi : Real.cos (Real.arccos (x / rxy)) = x / rxy := Real.cos_arccos hxlo hxhi
  have hsinphi : Real.sin (Real.arccos (x / rxy)) = |y| / rxy := by
    rw [Real.sin_arccos]
    have hy2 : 1 - (x / rxy) ^ 2 = (|y| / rxy) ^ 2 := by
      rw [div_pow, div_pow, sq_abs, eq_div_iff (by positivity)]
      field_simp
      nlinarith [hrxysq]
    rw [hy2, Real.sqrt_sq (by positivity)]
  have hD : Direction2Ang x y z =
      (Real.arccos z, if y < 0 then 2 * Real.pi - Real.arccos (x / rxy)
        else Real.arccos (x / rxy)) := by
    simp only [Direction2Ang]
    rw [hunit, Real.sqrt_one, if_neg one_ne_zero, div_one, ← hrxy, if_pos hxy, hclip,
      if_neg hno]
  rw [hD]
  by_cases hy : y < 0
  · rw [if_pos hy]
    have hc : Real.cos (2 * Real.pi - Real.arccos (x / rxy)) =
        Real.cos (Real.arccos (x / rxy)) := by
      rw [Real.cos_sub, Real.cos_two_pi, Real.sin_two_pi]
      ring
    have hs : Real.sin (2 * Real.pi - Real.arccos (x / rxy)) =
        -Real.sin (Real.arccos (x / rxy)) := by
      rw [Real.sin_sub, Real.sin_two_pi, Real.cos_two_pi]
      ring
    simp only [Ang2Direction, hc, hs, hcosphi, hsinphi, hsin,
      Real.cos_arccos hz1 hz2, Prod.mk.injEq]
    refine ⟨?_, ?_, trivial⟩
    · exact mul_div_cancel₀ x hrne
    · rw [mul_neg, mul_div_cancel₀ _ hrne, abs_of_neg hy, neg_neg]
  · rw [if_neg hy]
    simp only [Ang2Direction, hcosphi, hsinphi, hsin,
      Real.cos_arccos hz1 hz2, Prod.mk.injEq]
    refine ⟨?_, ?_, trivial⟩
    · exact mul_div_cancel₀ x hrne
    · rw [mul_div_cancel₀ _ hrne, abs_of_nonneg (not_lt.mp hy)]

/-- Witness for the amended C8 theorem at the unit vector (3/5, 4/5, 0). -/
theorem ang_direction_roundtrip_witness :
    ((3 / 5 : ℝ) ^ 2 + (4 / 5) ^ 2 + 0 ^ 2 = 1 ∧
      Real.sqrt ((3 / 5 : ℝ) ^ 2 + (4 / 5) ^ 2) > 1e-10 ∧
      ((1e-10 : ℝ) ≤ |(3 / 5 : ℝ)| ∨ (1e-10 : ℝ) ≤ |(4 / 5 : ℝ)|)) ∧
    Ang2Direction (Direction2Ang (3 / 5) (4 / 5) 0).1
      (Direction2Ang (3 / 5) (4 / 5) 0).2 = (3 / 5, 4 / 5, 0) := by
  have h1 : (3 / 5 : ℝ) ^ 2 + (4 / 5) ^ 2 + 0 ^ 2 = 1 := by norm_num
  have h2 : Real.sqrt ((3 / 5 : ℝ) ^ 2 + (4 / 5) ^ 2) > 1e-10 := by
    rw [show ((3 / 5 : ℝ) ^ 2 + (4 / 5) ^ 2) = 1 by norm_num, Real.sqrt_one]
    norm_num
  have h3 : (1e-10 : ℝ) ≤ |(3 / 5 : ℝ)| ∨ (1e-10 : ℝ) ≤ |(4 / 5 : ℝ)| := by
    left
    rw [abs_of_nonneg (by norm_num : (0 : ℝ) ≤ 3 / 5)]
    norm_num
  exact ⟨⟨h1, h2, h3⟩, ang_direction_roundtrip (3 / 5) (4 / 5) 0 h1 h2 h3⟩

/-- C8 counterexample: the unit vector with `x = y = 9e-11` has xy-projection
norm `sqrt 2 * 9e-11 > 1e-10` — above the degeneracy threshold — yet the
round trip is NOT the identity: both `|x|` and `|y|` are below `1e-10`, so
the final origin override forces `phi = 0` and the x-component comes back
as `sqrt 2 * 9e-11 ≠ 9e-11`. -/
theorem ang_direction_roundtrip_counterexample :
    ((9e-11 : ℝ) ^ 2 + (9e-11 : ℝ) ^ 2 +
        Real.sqrt (1 - 2 * (9e-11 : ℝ) ^ 2) ^ 2 = 1) ∧
    Real.sqrt ((9e-11 : ℝ) ^ 2 + (9e-11 : ℝ) ^ 2) > 1e-10 ∧
    (Ang2Direction
        (Direction2Ang 9e-11 9e-11 (Real.sqrt (1 - 2 * (9e-11 : ℝ) ^ 2))).1
        (Direction2Ang 9e-11 9e-11 (Real.sqrt (1 - 2 * (9e-11 : ℝ) ^ 2))).2).1 ≠
      (9e-11 : ℝ) := by
  set a : ℝ := 9e-11 with ha
  set z : ℝ := Real.sqrt (1 - 2 * a ^ 2) with hz
  have ha0 : (0 : ℝ) < a := by rw [ha]; norm_num
  have hz2 : z ^ 2 = 1 - 2 * a ^ 2 := Real.sq_sqrt (by rw [ha]; norm_num)
  have hunit : a ^ 2 + a ^ 2 + z ^ 2 = 1 := by rw [hz2]; ring
  have hr2 : Real.sqrt (a ^ 2 + a ^ 2) = Real.sqrt 2 * a := by
    rw [show a ^ 2 + a ^ 2 = 2 * a ^ 2 by ring,
      Real.sqrt_mul (by norm_num : (0 : ℝ) ≤ 2), Real.sqrt_sq ha0.le]
  have hsqrt2 : 1 < Real.sqrt 2 := by
    have h := Real.sqrt_lt_sqrt (by norm_num : (0 : ℝ) ≤ 1) (by norm_num : (1 : ℝ) < 2)
    rwa [Real.sqrt_one] at h
  have hsqrt2b : (10 / 9 : ℝ) < Real.sqrt 2 := by
    have hs := Real.sq_sqrt (show (0 : ℝ) ≤ 2 by norm_num)
    nlinarith [hs, Real.sqrt_nonneg (2 : ℝ)]
  have hrxy : Real.sqrt (a ^ 2 + a ^ 2) > 1e-10 := by
    rw [hr2]
    have h9 : (1e-10 : ℝ) < Real.sqrt 2 * 9e-11 := by
      nlinarith [hsqrt2b]
    calc (1e-10 : ℝ) < Real.sqrt 2 * 9e-11 := h9
      _ = Real.sqrt 2 * a := by rw [ha]
  refine ⟨hunit, hrxy, ?_⟩
  have horigin : |a| < 1e-10 ∧ |a| < 1e-10 := by
    rw [abs_of_pos ha0, ha]
    norm_num
  have hD2 : (Direction2Ang a a z).2 = 0 := by
    simp only [Direction2Ang]
    rw [if_pos horigin]
  have hD1 : (Direction2Ang a a z).1 = Real.arccos z := by
    simp only [Direction2Ang]
    rw [show a ^ 2 + a ^ 2 + z ^ 2 = 1 from hunit, Real.sqrt_one,
      if_neg one_ne_zero, div_one]
  rw [hD1, hD2]
  simp only [Ang2Direction, Real.cos_zero, mul_one]
  rw [Real.sin_arccos, hz2, show 1 - (1 - 2 * a ^ 2) = 2 * a ^ 2 by ring,
    Real.sqrt_mul (by norm_num : (0 : ℝ) ≤ 2), Real.sqrt_sq ha0.le]
  intro hcontra
  nlinarith [hsqrt2, ha0]

/-! ## The chi-sampling behaviour of the shear and Poisson aggregates (C5) -/

set_option maxHeartbeats 1000000 in
theorem S_tensor_S0_2020 : S_tensor S0shear (2, 0, 2, 0) = 1 / 4 := by
  rw [show S_tensor S0shear (2, 0, 2, 0) =
    applyWrites (tensorWrites S0shear) (fun _ => 0) (2, 0, 2, 0) from rfl]
  simp [tensorWrites, show List.finRange 6 = [0, 1, 2, 3, 4, 5] from by decide,
    show voigt_map 0 = (0, 0) from rfl, show voigt_map 1 = (1, 1) from rfl,
    show voigt_map 2 = (2, 2) from rfl, show voigt_map 3 = (1, 2) from rfl,
    show voigt_map 4 = (0, 2) from rfl, show voigt_map 5 = (0, 1) from rfl,
    List.flatMap_cons, List.flatMap_nil]
  simp [applyWrites_cons, applyWrites_nil, Function.update_apply, S0shear,
    show ((0 : Fin 6) : ℕ) = 0 from rfl, show ((1 : Fin 6) : ℕ) = 1 from rfl,
    show ((2 : Fin 6) : ℕ) = 2 from rfl, show ((3 : Fin 6) : ℕ) = 3 from rfl,
    show ((4 : Fin 6) : ℕ) = 4 from rfl, show ((5 : Fin 6) : ℕ) = 5 from rfl]
  norm_num

set_option maxHeartbeats 1000000 in
theorem S_tensor_S0_2121 : S_tensor S0shear (2, 1, 2, 1) = 1 / 2 := by
  rw [show S_tensor S0shear (2, 1, 2, 1) =
    applyWrites (tensorWrites S0shear) (fun _ => 0) (2, 1, 2, 1) from rfl]
  simp [tensorWrites, show List.finRange 6 = [0, 1, 2, 3, 4, 5] from by decide,
    show voigt_map 0 = (0, 0) from rfl, show voigt_map 1 = (1, 1) from rfl,
    show voigt_map 2 = (2, 2) from rfl, show voigt_map 3 = (1, 2) from rfl,
    show voigt_map 4 = (0, 2) from rfl, show voigt_map 5 = (0, 1) from rfl,
    List.flatMap_cons, List.flatMap_nil]
  simp [applyWrites_cons, applyWrites_nil, Function.update_apply, S0shear,
    show ((0 : Fin 6) : ℕ) = 0 from rfl, show ((1 : Fin 6) : ℕ) = 1 from rfl,
    show ((2 : Fin 6) : ℕ) = 2 from rfl, show ((3 : Fin 6) : ℕ) = 3 from rfl,
    show ((4 : Fin 6) : ℕ) = 4 from rfl, show ((5 : Fin 6) : ℕ) = 5 from rfl]

set_option maxHeartbeats 1000000 in
theorem S_tensor_S0_2021 : S_tensor S0shear (2, 0, 2, 1) = 0 := by
  rw [show S_tensor S0shear (2, 0, 2, 1) =
    applyWrites (tensorWrites S0shear) (fun _ => 0) (2, 0, 2, 1) from rfl]
  simp [tensorWrites, show List.finRange 6 = [0, 1, 2, 3, 4, 5] from by decide,
    show voigt_map 0 = (0, 0) from rfl, show voigt_map 1 = (1, 1) from rfl,
    show voigt_map 2 = (2, 2) from rfl, show voigt_map 3 = (1, 2) from rfl,
    show voigt_map 4 = (0, 2) from rfl, show voigt_map 5 = (0, 1) from rfl,
    List.flatMap_cons, List.flatMap_nil]
  simp [applyWrites_cons, applyWrites_nil, Function.update_apply, S0shear,
    show ((0 : Fin 6) : ℕ) = 0 from rfl, show ((1 : Fin 6) : ℕ) = 1 from rfl,
    show ((2 : Fin 6) : ℕ) = 2 from rfl, show ((3 : Fin 6) : ℕ) = 3 from rfl,
    show ((4 : Fin 6) : ℕ) = 4 from rfl, show ((5 : Fin 6) : ℕ) = 5 from rfl]

set_option maxHeartbeats 1000000 in
theorem S_tensor_S0_2120 : S_tensor S0shear (2, 1, 2, 0) = 0 := by
  rw [show S_tensor S0shear (2, 1, 2, 0) =
    applyWrites (tensorWrites S0shear) (fun _ => 0) (2, 1, 2, 0) from rfl]
  simp [tensorWrites, show List.finRange 6 = [0, 1, 2, 3, 4, 5] from by decide,
    show voigt_map 0 = (0, 0) from rfl, show voigt_map 1 = (1, 1) from rfl,
    show voigt_map 2 = (2, 2) from rfl, show voigt_map 3 = (1, 2) from rfl,
    show voigt_map 4 = (0, 2) from rfl, show voigt_map 5 = (0, 1) from rfl,
    List.flatMap_cons, List.flatMap_nil]
  simp [applyWrites_cons, applyWrites_nil, Function.update_apply, S0shear,
    show ((0 : Fin 6) : ℕ) = 0 from rfl, show ((1 : Fin 6) : ℕ) = 1 from rfl,
    show ((2 : Fin 6) : ℕ) = 2 from rfl, show ((3 : Fin 6) : ℕ) = 3 from rfl,
    show ((4 : Fin 6) : ℕ) = 4 from rfl, show ((5 : Fin 6) : ℕ) = 5 from rfl]

set_option maxHeartbeats 1000000 in
theorem shear4d_S0 (chi : ℝ) :
    Shear_4D S0shear 0 0 chi = 1 / (1 + Real.sin chi ^ 2) := by
  have hcs := Real.sin_sq_add_cos_sq chi
  simp only [Shear_4D, Fin.sum_univ_three, Real.sin_zero, Real.cos_zero,
    Matrix.cons_val_zero, Matrix.cons_val_one, Matrix.head_cons,
    Matrix.cons_val_two, Matrix.tail_cons,
    zero_mul, mul_zero, mul_one, one_mul, neg_zero, zero_add, add_zero,
    sub_zero, zero_sub]
  rw [S_tensor_S0_2020, S_tensor_S0_2121, S_tensor_S0_2021, S_tensor_S0_2120]
  congr 1
  linear_combination hcs

theorem linspace3_0 : linspace (-Real.pi) Real.pi 3 (0 : Fin 3) = -Real.pi := by
  norm_num [linspace]

theorem linspace3_1 : linspace (-Real.pi) Real.pi 3 (1 : Fin 3) = 0 := by
  norm_num [linspace]

theorem linspace3_2 : linspace (-Real.pi) Real.pi 3 (2 : Fin 3) = Real.pi := by
  norm_num [linspace]

theorem sin_linspace3 (c : Fin 3) :
    Real.sin (linspace (-Real.pi) Real.pi 3 c) = 0 := by
  fin_cases c
  · show Real.sin (linspace (-Real.pi) Real.pi 3 0) = 0
    rw [linspace3_0]
    simp
  · show Real.sin (linspace (-Real.pi) Real.pi 3 1) = 0
    rw [linspace3_1]
    simp
  · show Real.sin (linspace (-Real.pi) Real.pi 3 2) = 0
    rw [linspace3_2]
    simp

theorem code_min_S0 : (Shear_3D_2d S0shear zeroGrid3 zeroGrid3).1 0 0 = 1 := by
  have hfun : (fun c : Fin 3 =>
      Shear_4D S0shear (zeroGrid3 0 0) (zeroGrid3 0 0) (linspace (-Real.pi) Real.pi 3 c)) =
      fun _ => 1 := by
    funext c
    show Shear_4D S0shear 0 0 (linspace (-Real.pi) Real.pi 3 c) = 1
    rw [shear4d_S0, sin_linspace3 c]
    norm_num
  show npMin (fun c : Fin 3 =>
    Shear_4D S0shear (zeroGrid3 0 0) (zeroGrid3 0 0) (linspace (-Real.pi) Real.pi 3 c)) = 1
  rw [hfun]
  exact Finset.inf'_const _ _

set_option maxRecDepth 10000 in
theorem spec_min_S0 : (Shear_3D_2d_spec S0shear zeroGrid3 zeroGrid3).1 0 0 < 1 := by
  have hχ : linspace (-Real.pi) Real.pi 100 (1 : Fin 100) =
      -Real.pi + 2 * Real.pi / 99 := by
    norm_num [linspace]
    ring
  have hsin1 : Real.sin (linspace (-Real.pi) Real.pi 100 (1 : Fin 100)) =
      -Real.sin (2 * Real.pi / 99) := by
    rw [hχ, Real.sin_add, Real.sin_neg, Real.sin_pi, Real.cos_neg, Real.cos_pi]
    ring
  have hpos : 0 < Real.sin (2 * Real.pi / 99) := by
    apply Real.sin_pos_of_pos_of_lt_pi
    · positivity
    · nlinarith [Real.pi_pos]
  have hval : Shear_4D S0shear (zeroGrid3 0 0) (zeroGrid3 0 0)
      (linspace (-Real.pi) Real.pi 100 (1 : Fin 100)) < 1 := by
    show Shear_4D S0shear 0 0 (linspace (-Real.pi) Real.pi 100 (1 : Fin 100)) < 1
    rw [shear4d_S0, hsin1]
    rw [div_lt_one (by positivity)]
    nlinarith [hpos]
  have hle : (Shear_3D_2d_spec S0shear zeroGrid3 zeroGrid3).1 0 0 ≤
      Shear_4D S0shear (zeroGrid3 0 0) (zeroGrid3 0 0)
        (linspace (-Real.pi) Real.pi 100 (1 : Fin 100)) := by
    show Finset.univ.inf' Finset.univ_nonempty (fun c : Fin 100 =>
      Shear_4D S0shear (zeroGrid3 0 0) (zeroGrid3 0 0)
        (linspace (-Real.pi) Real.pi 100 c)) ≤ _
    exact Finset.inf'_le _ (Finset.mem_univ (1 : Fin 100))
  linarith

/-- C5 counterexample: on a 3x3 direction grid the 2-D branch of Shear_3D
samples chi over only n = 3 values (the grid's column count), not 100: with
the compliance matrix having only S44 = 2 and S55 = 1 and all directions at
theta = phi = 0, the primitive is 1/(1 + sin(chi)^2); the three code samples
-pi, 0, pi all give the value 1 so the code's minimum is 1, while the
spec's 100-sample minimum is strictly below 1. -/
theorem shear_chi_sampling_counterexample :
    (Shear_3D_2d S0shear zeroGrid3 zeroGrid3).1 0 0 ≠
      (Shear_3D_2d_spec S0shear zeroGrid3 zeroGrid3).1 0 0 := by
  intro h
  have h1 := code_min_S0
  have h2 := spec_min_S0
  rw [h] at h1
  linarith

/-- C5 amended: the 1-D branches of Shear_3D and Poisson_3D sample chi over
exactly 100 uniform values in [-pi, pi] and return the elementwise minimum,
mean and maximum of the primitive across that sampling, as the spec states;
the 2-D branches do the same but with n chi samples, where n is the number
of grid columns — so they agree with the spec's 100-sample description
exactly when the grid has 100 columns. -/
theorem shear_poisson_aggregates_sampling {p m : ℕ} (S : Fin 6 → Fin 6 → ℝ)
    (theta phi : Fin p → ℝ) (Theta Phi : Fin m → Fin 100 → ℝ) :
    Shear_3D_1d S theta phi = Shear_3D_1d_spec S theta phi ∧
    Poisson_3D_1d S theta phi = Poisson_3D_1d_spec S theta phi ∧
    Shear_3D_2d S Theta Phi = Shear_3D_2d_spec S Theta Phi ∧
    Poisson_3D_2d S Theta Phi = Poisson_3D_2d_spec S Theta Phi :=
  ⟨rfl, rfl, rfl, rfl⟩

/-! ## VRH bounds and anisotropy theorems (C3) -/

theorem fv60 : ((0 : Fin 6) : ℕ) = 0 := rfl
theorem fv61 : ((1 : Fin 6) : ℕ) = 1 := rfl
theorem fv62 : ((2 : Fin 6) : ℕ) = 2 := rfl
theorem fv63 : ((3 : Fin 6) : ℕ) = 3 := rfl
theorem fv64 : ((4 : Fin 6) : ℕ) = 4 := rfl
theorem fv65 : ((5 : Fin 6) : ℕ) = 5 := rfl

theorem sqrt2_ne_zero : Real.sqrt 2 ≠ 0 := by positivity

theorem dot_sym (M : Matrix (Fin 6) (Fin 6) ℝ) (hsym : Mᵀ = M) (x y : Fin 6 → ℝ) :
    y ⬝ᵥ M *ᵥ x = x ⬝ᵥ M *ᵥ y := by
  conv_lhs => rw [← hsym]
  rw [Matrix.mulVec_transpose, dotProduct_comm, Matrix.dotProduct_mulVec]

theorem cs_dot (M : Matrix (Fin 6) (Fin 6) ℝ) (hsym : Mᵀ = M)
    (hpsd : ∀ x, 0 ≤ x ⬝ᵥ M *ᵥ x) (x y : Fin 6 → ℝ) :
    (x ⬝ᵥ M *ᵥ y) ^ 2 ≤ (x ⬝ᵥ M *ᵥ x) * (y ⬝ᵥ M *ᵥ y) := by
  have key : ∀ t : ℝ, 0 ≤ (y ⬝ᵥ M *ᵥ y) * (t * t) + (2 * (x ⬝ᵥ M *ᵥ y)) * t +
      (x ⬝ᵥ M *ᵥ x) := by
    intro t
    have h := hpsd (x + t • y)
    have hexp : (x + t • y) ⬝ᵥ M *ᵥ (x + t • y) =
        (y ⬝ᵥ M *ᵥ y) * (t * t) + (2 * (x ⬝ᵥ M *ᵥ y)) * t + (x ⬝ᵥ M *ᵥ x) := by
      rw [Matrix.mulVec_add, Matrix.mulVec_smul, dotProduct_add, add_dotProduct,
        add_dotProduct, smul_dotProduct, dotProduct_smul, smul_dotProduct,
        dotProduct_smul, dot_sym M hsym x y]
      simp only [smul_eq_mul]
      ring
    linarith [hexp ▸ h]
  have hd := discrim_le_zero key
  rw [discrim] at hd
  nlinarith [hd]

theorem traceForm_nonneg (M : Matrix (Fin 6) (Fin 6) ℝ)
    (hpsd : ∀ x, 0 ≤ x ⬝ᵥ M *ᵥ x) (X : Matrix (Fin 6) (Fin 6) ℝ) :
    0 ≤ traceForm M X X :=
  Finset.sum_nonneg fun j _ => hpsd _

theorem traceForm_sym (M : Matrix (Fin 6) (Fin 6) ℝ) (hsym : Mᵀ = M)
    (X Y : Matrix (Fin 6) (Fin 6) ℝ) : traceForm M Y X = traceForm M X Y :=
  Finset.sum_congr rfl fun j _ => dot_sym M hsym _ _

theorem traceForm_add_left (M X Y Z : Matrix (Fin 6) (Fin 6) ℝ) :
    traceForm M (X + Y) Z = traceForm M X Z + traceForm M Y Z := by
  unfold traceForm
  rw [← Finset.sum_add_distrib]
  refine Finset.sum_congr rfl fun j _ => ?_
  have hcol : (fun i => (X + Y) i j) = (fun i => X i j) + (fun i => Y i j) := rfl
  rw [hcol, add_dotProduct]

theorem traceForm_smul_left (M : Matrix (Fin 6) (Fin 6) ℝ) (t : ℝ)
    (X Z : Matrix (Fin 6) (Fin 6) ℝ) :
    traceForm M (t • X) Z = t * traceForm M X Z := by
  unfold traceForm
  rw [Finset.mul_sum]
  refine Finset.sum_congr rfl fun j _ => ?_
  have hcol : (fun i => (t • X) i j) = t • (fun i => X i j) := rfl
  rw [hcol, smul_dotProduct, smul_eq_mul]

theorem traceForm_add_right (M X Y Z : Matrix (Fin 6) (Fin 6) ℝ) :
    traceForm M X (Y + Z) = traceForm M X Y + traceForm M X Z := by
  unfold traceForm
  rw [← Finset.sum_add_distrib]
  refine Finset.sum_congr rfl fun j _ => ?_
  have hcol : (fun i => (Y + Z) i j) = (fun i => Y i j) + (fun i => Z i j) := rfl
  rw [hcol, Matrix.mulVec_add, dotProduct_add]

theorem traceForm_smul_right (M : Matrix (Fin 6) (Fin 6) ℝ) (t : ℝ)
    (X Z : Matrix (Fin 6) (Fin 6) ℝ) :
    traceForm M X (t • Z) = t * traceForm M X Z := by
  unfold traceForm
  rw [Finset.mul_sum]
  refine Finset.sum_congr rfl fun j _ => ?_
  have hcol : (fun i => (t • Z) i j) = t • (fun i => Z i j) := rfl
  rw [hcol, Matrix.mulVec_smul, dotProduct_smul, smul_eq_mul]

theorem cs_trace (M : Matrix (Fin 6) (Fin 6) ℝ) (hsym : Mᵀ = M)
    (hpsd : ∀ x, 0 ≤ x ⬝ᵥ M *ᵥ x) (X Y : Matrix (Fin 6) (Fin 6) ℝ) :
    traceForm M X Y ^ 2 ≤ traceForm M X X * traceForm M Y Y := by
  have key : ∀ t : ℝ, 0 ≤ traceForm M Y Y * (t * t) + (2 * traceForm M X Y) * t +
      traceForm M X X := by
    intro t
    have h : 0 ≤ traceForm M (X + t • Y) (X + t • Y) := traceForm_nonneg M hpsd _
    have hexp : traceForm M (X + t • Y) (X + t • Y) =
        traceForm M Y Y * (t * t) + (2 * traceForm M X Y) * t + traceForm M X X := by
      simp only [traceForm_add_left, traceForm_add_right, traceForm_smul_left,
        traceForm_smul_right, traceForm_sym M hsym Y X]
      ring
    linarith [hexp ▸ h]
  have hd := discrim_le_zero key
  rw [discrim] at hd
  nlinarith [hd]

theorem traceForm_eq_trace (M X Y : Matrix (Fin 6) (Fin 6) ℝ) :
    traceForm M X Y = Matrix.trace (Xᵀ * M * Y) := by
  unfold traceForm
  rw [Matrix.trace]
  refine Finset.sum_congr rfl fun j _ => ?_
  simp only [Matrix.diag_apply, Matrix.mul_apply, Matrix.transpose_apply, dotProduct,
    Matrix.mulVec, dotProduct, Finset.sum_mul, Finset.mul_sum]
  rw [Finset.sum_comm]
  refine Finset.sum_congr rfl fun i _ => Finset.sum_congr rfl fun k _ => by ring

theorem d6_mul_dinv6 (i : Fin 6) : d6 i * dinv6 i = 1 := by
  fin_cases i <;>
    simp [d6, dinv6, mul_inv_cancel₀ sqrt2_ne_zero]

theorem dinv6_mul_d6 (i : Fin 6) : dinv6 i * d6 i = 1 := by
  rw [mul_comm]
  exact d6_mul_dinv6 i

theorem DDinv : Dmat * DinvMat = 1 := by
  rw [Dmat, DinvMat, Matrix.diagonal_mul_diagonal,
    show (fun i => d6 i * dinv6 i) = fun _ => (1 : ℝ) from funext d6_mul_dinv6,
    Matrix.diagonal_one]

theorem DinvD : DinvMat * Dmat = 1 := by
  rw [Dmat, DinvMat, Matrix.diagonal_mul_diagonal,
    show (fun i => dinv6 i * d6 i) = fun _ => (1 : ℝ) from funext dinv6_mul_d6,
    Matrix.diagonal_one]

theorem Dmat_sym : Dmatᵀ = Dmat := Matrix.diagonal_transpose d6

theorem DinvMat_sym : DinvMatᵀ = DinvMat := Matrix.diagonal_transpose dinv6

theorem eeM_sym : eeMᵀ = eeM := by
  ext i j
  simp [eeM, Matrix.transpose_apply, mul_comm]

theorem P6_sym : P6ᵀ = P6 := by
  rw [P6, Matrix.transpose_sub, Matrix.transpose_one, Matrix.transpose_smul, eeM_sym]

theorem eeM_mul_eeM : eeM * eeM = (3 : ℝ) • eeM := by
  ext i j
  simp only [Matrix.mul_apply, Matrix.smul_apply, smul_eq_mul, eeM, Matrix.of_apply]
  rw [Fin.sum_univ_six]
  fin_cases i <;> fin_cases j <;>
    norm_num [e6, fv60, fv61, fv62, fv63, fv64, fv65]

theorem P6_mul_P6 : P6 * P6 = P6 := by
  rw [P6]
  simp only [Matrix.sub_mul, Matrix.mul_sub, Matrix.smul_mul, Matrix.mul_smul,
    Matrix.one_mul, Matrix.mul_one, eeM_mul_eeM]
  module

theorem Chat_mul_Shat (C S : Matrix (Fin 6) (Fin 6) ℝ) (hCS : C * S = 1) :
    Chat C * Shat S = 1 := by
  rw [Chat, Shat]
  calc Dmat * C * Dmat * (DinvMat * S * DinvMat)
      = Dmat * C * (Dmat * DinvMat) * S * DinvMat := by noncomm_ring
    _ = 1 := by rw [DDinv, Matrix.mul_one, Matrix.mul_assoc Dmat, hCS, Matrix.mul_one, DDinv]

theorem Shat_mul_Chat (C S : Matrix (Fin 6) (Fin 6) ℝ) (hSC : S * C = 1) :
    Shat S * Chat C = 1 := by
  rw [Chat, Shat]
  calc DinvMat * S * DinvMat * (Dmat * C * Dmat)
      = DinvMat * S * (DinvMat * Dmat) * C * Dmat := by noncomm_ring
    _ = 1 := by rw [DinvD, Matrix.mul_one, Matrix.mul_assoc DinvMat, hSC, Matrix.mul_one, DinvD]

theorem Chat_sym (C : Matrix (Fin 6) (Fin 6) ℝ) (hsym : Cᵀ = C) : (Chat C)ᵀ = Chat C := by
  rw [Chat, Matrix.transpose_mul, Matrix.transpose_mul, Dmat_sym, hsym,
    Matrix.mul_assoc]

theorem Shat_sym (S : Matrix (Fin 6) (Fin 6) ℝ) (hsym : Sᵀ = S) : (Shat S)ᵀ = Shat S := by
  rw [Shat, Matrix.transpose_mul, Matrix.transpose_mul, DinvMat_sym, hsym,
    Matrix.mul_assoc]

theorem dot_shift (A : Matrix (Fin 6) (Fin 6) ℝ) (x y : Fin 6 → ℝ) :
    x ⬝ᵥ A *ᵥ y = (Aᵀ *ᵥ x) ⬝ᵥ y := by
  rw [Matrix.dotProduct_mulVec]
  congr 1
  rw [← Matrix.vecMul_transpose, Matrix.transpose_transpose]

theorem Chat_quadratic (C : Matrix (Fin 6) (Fin 6) ℝ) (x : Fin 6 → ℝ) :
    x ⬝ᵥ Chat C *ᵥ x = (Dmat *ᵥ x) ⬝ᵥ C *ᵥ (Dmat *ᵥ x) := by
  rw [Chat, ← Matrix.mulVec_mulVec, ← Matrix.mulVec_mulVec, dot_shift, Dmat_sym]

theorem Shat_quadratic (S : Matrix (Fin 6) (Fin 6) ℝ) (x : Fin 6 → ℝ) :
    x ⬝ᵥ Shat S *ᵥ x = (DinvMat *ᵥ x) ⬝ᵥ S *ᵥ (DinvMat *ᵥ x) := by
  rw [Shat, ← Matrix.mulVec_mulVec, ← Matrix.mulVec_mulVec, dot_shift, DinvMat_sym]

theorem Dmat_mulVec_e6 : Dmat *ᵥ e6 = e6 := by
  funext i
  rw [Dmat, Matrix.mulVec_diagonal]
  by_cases h : i.val < 3 <;> simp [d6, e6, h]

theorem DinvMat_mulVec_e6 : DinvMat *ᵥ e6 = e6 := by
  funext i
  rw [DinvMat, Matrix.mulVec_diagonal]
  by_cases h : i.val < 3 <;> simp [dinv6, e6, h]

theorem trace_mul_eeM (A : Matrix (Fin 6) (Fin 6) ℝ) :
    Matrix.trace (A * eeM) = e6 ⬝ᵥ A *ᵥ e6 := by
  simp only [Matrix.trace, Matrix.diag_apply, Matrix.mul_apply, eeM, Matrix.of_apply,
    dotProduct, Matrix.mulVec, Finset.mul_sum, Finset.sum_mul]
  refine Finset.sum_congr rfl fun i _ => Finset.sum_congr rfl fun k _ => by ring

theorem quad_e6 (A : Matrix (Fin 6) (Fin 6) ℝ) (hsym : Aᵀ = A) :
    e6 ⬝ᵥ A *ᵥ e6 = A 0 0 + A 1 1 + A 2 2 + 2 * (A 0 1 + A 0 2 + A 1 2) := by
  have h10 : A 1 0 = A 0 1 := congrFun (congrFun hsym 0) 1
  have h20 : A 2 0 = A 0 2 := congrFun (congrFun hsym 0) 2
  have h21 : A 2 1 = A 1 2 := congrFun (congrFun hsym 1) 2
  simp only [dotProduct, Matrix.mulVec, Fin.sum_univ_six, e6,
    fv60, fv61, fv62, fv63, fv64, fv65]
  norm_num
  linarith

theorem Chat_apply (C : Matrix (Fin 6) (Fin 6) ℝ) (i j : Fin 6) :
    Chat C i j = d6 i * C i j * d6 j := by
  rw [Chat, Dmat, Matrix.mul_diagonal, Matrix.diagonal_mul]

theorem Shat_apply (S : Matrix (Fin 6) (Fin 6) ℝ) (i j : Fin 6) :
    Shat S i j = dinv6 i * S i j * dinv6 j := by
  rw [Shat, DinvMat, Matrix.mul_diagonal, Matrix.diagonal_mul]

theorem sqrt2_sq : Real.sqrt 2 * Real.sqrt 2 = 2 :=
  Real.mul_self_sqrt (by norm_num)

theorem sqrt2_inv_sq : (Real.sqrt 2)⁻¹ * (Real.sqrt 2)⁻¹ = 1 / 2 := by
  rw [← mul_inv]
  rw [sqrt2_sq]
  norm_num

theorem trace_Chat (C : Matrix (Fin 6) (Fin 6) ℝ) :
    Matrix.trace (Chat C) =
      C 0 0 + C 1 1 + C 2 2 + 2 * (C 3 3 + C 4 4 + C 5 5) := by
  simp [Matrix.trace, Matrix.diag_apply, Fin.sum_univ_six, Chat_apply, d6,
    fv60, fv61, fv62, fv63, fv64, fv65]
  linear_combination (C 3 3 + C 4 4 + C 5 5) * sqrt2_sq

theorem trace_Shat (S : Matrix (Fin 6) (Fin 6) ℝ) :
    Matrix.trace (Shat S) =
      S 0 0 + S 1 1 + S 2 2 + (1 / 2) * (S 3 3 + S 4 4 + S 5 5) := by
  simp [Matrix.trace, Matrix.diag_apply, Fin.sum_univ_six, Shat_apply, dinv6,
    fv60, fv61, fv62, fv63, fv64, fv65]
  linear_combination (S 3 3 + S 4 4 + S 5 5) * sqrt2_inv_sq

theorem trace_eeM : Matrix.trace eeM = 3 := by
  simp only [Matrix.trace, Matrix.diag_apply, Fin.sum_univ_six, eeM, Matrix.of_apply,
    e6, fv60, fv61, fv62, fv63, fv64, fv65]
  norm_num

theorem trace_P6 : Matrix.trace P6 = 5 := by
  rw [P6, Matrix.trace_sub, Matrix.trace_smul, trace_eeM, Matrix.trace_one]
  simp
  norm_num

theorem trace_P6_conj (N : Matrix (Fin 6) (Fin 6) ℝ) :
    Matrix.trace (P6 * N * P6) = Matrix.trace (N * P6) := by
  rw [Matrix.trace_mul_comm (P6 * N) P6, ← Matrix.mul_assoc, P6_mul_P6,
    Matrix.trace_mul_comm]

theorem trace_mul_P6 (N : Matrix (Fin 6) (Fin 6) ℝ) :
    Matrix.trace (N * P6) = Matrix.trace N - 3⁻¹ * (e6 ⬝ᵥ N *ᵥ e6) := by
  rw [P6, Matrix.mul_sub, Matrix.mul_one, Matrix.mul_smul, Matrix.trace_sub,
    Matrix.trace_smul, trace_mul_eeM, smul_eq_mul]

theorem traceForm_P6_P6 (M : Matrix (Fin 6) (Fin 6) ℝ) (hsym : Mᵀ = M) :
    traceForm M P6 P6 = Matrix.trace (M * P6) := by
  rw [traceForm_eq_trace, P6_sym, Matrix.trace_mul_comm, ← Matrix.mul_assoc,
    P6_mul_P6, Matrix.trace_mul_comm]

theorem mkVRH3D_K_V (C S : Matrix (Fin 6) (Fin 6) ℝ) :
    (mkVRH3D C S).K_V = (C 0 0 + C 1 1 + C 2 2 + 2 * (C 0 1 + C 0 2 + C 1 2)) / 9 := rfl

theorem mkVRH3D_K_R (C S : Matrix (Fin 6) (Fin 6) ℝ) :
    (mkVRH3D C S).K_R = 1 / (S 0 0 + S 1 1 + S 2 2 + 2 * (S 0 1 + S 0 2 + S 1 2)) := rfl

theorem mkVRH3D_G_V (C S : Matrix (Fin 6) (Fin 6) ℝ) :
    (mkVRH3D C S).G_V = (C 0 0 + C 1 1 + C 2 2 - (C 0 1 + C 0 2 + C 1 2) +
      3 * (C 3 3 + C 4 4 + C 5 5)) / 15 := rfl

theorem mkVRH3D_G_R (C S : Matrix (Fin 6) (Fin 6) ℝ) :
    (mkVRH3D C S).G_R = 15 / (4 * (S 0 0 + S 1 1 + S 2 2) -
      4 * (S 0 1 + S 0 2 + S 1 2) + 3 * (S 3 3 + S 4 4 + S 5 5)) := rfl

theorem mkVRH3D_K_VRH (C S : Matrix (Fin 6) (Fin 6) ℝ) :
    (mkVRH3D C S).K_VRH = ((mkVRH3D C S).K_V + (mkVRH3D C S).K_R) / 2 := rfl

theorem mkVRH3D_G_VRH (C S : Matrix (Fin 6) (Fin 6) ℝ) :
    (mkVRH3D C S).G_VRH = ((mkVRH3D C S).G_V + (mkVRH3D C S).G_R) / 2 := rfl

theorem mkVRH3D_A (C S : Matrix (Fin 6) (Fin 6) ℝ) :
    (mkVRH3D C S).A =
      5 * (mkVRH3D C S).G_V / (mkVRH3D C S).G_R +
        (mkVRH3D C S).K_V / (mkVRH3D C S).K_R - 6 := rfl

theorem e6_ne_zero : e6 ≠ 0 := by
  intro h
  have h0 := congrFun h 0
  simp [e6, fv60] at h0

theorem e6_dot_e6 : e6 ⬝ᵥ e6 = 3 := by
  simp [dotProduct, e6, Fin.sum_univ_six, fv60, fv61, fv62, fv63, fv64, fv65]
  norm_num

theorem posdef_quad_nonneg (C : Matrix (Fin 6) (Fin 6) ℝ) (hC : C.PosDef)
    (x : Fin 6 → ℝ) : 0 ≤ x ⬝ᵥ C *ᵥ x := by
  by_cases hx : x = 0
  · simp [hx]
  · exact le_of_lt (hC.2 x hx)

theorem Dmat_vec_ne_zero (x : Fin 6 → ℝ) (hx : x ≠ 0) : Dmat *ᵥ x ≠ 0 := by
  intro h
  apply hx
  have h2 : DinvMat *ᵥ (Dmat *ᵥ x) = 0 := by rw [h, Matrix.mulVec_zero]
  rwa [Matrix.mulVec_mulVec, DinvD, Matrix.one_mulVec] at h2

theorem Chat_psd (C : Matrix (Fin 6) (Fin 6) ℝ) (hC : C.PosDef) :
    ∀ x, 0 ≤ x ⬝ᵥ Chat C *ᵥ x := by
  intro x
  rw [Chat_quadratic]
  exact posdef_quad_nonneg C hC _

theorem Chat_pd (C : Matrix (Fin 6) (Fin 6) ℝ) (hC : C.PosDef) (x : Fin 6 → ℝ)
    (hx : x ≠ 0) : 0 < x ⬝ᵥ Chat C *ᵥ x := by
  rw [Chat_quadratic]
  exact hC.2 _ (Dmat_vec_ne_zero x hx)

theorem col_mul (A B : Matrix (Fin 6) (Fin 6) ℝ) (j : Fin 6) :
    (fun i => (A * B) i j) = A *ᵥ (fun i => B i j) := by
  funext i
  simp [Matrix.mul_apply, Matrix.mulVec, dotProduct]

theorem P6_col0_ne_zero : (fun i => P6 i 0) ≠ 0 := by
  intro h
  have h0 := congrFun h 0
  simp [P6, Matrix.sub_apply, Matrix.one_apply, Matrix.smul_apply, eeM, e6, fv60] at h0
  norm_num at h0

set_option maxHeartbeats 1000000 in
theorem isoMat_mul_isoSinv (a b : ℝ) (hab : a - b ≠ 0) (hab2 : a + 2 * b ≠ 0) :
    isoMat a b * isoSinv a b = 1 := by
  ext i j
  rw [Matrix.mul_apply, Fin.sum_univ_six]
  fin_cases i <;> fin_cases j <;>
    (simp [isoMat, isoSinv, Matrix.one_apply, fv60, fv61, fv62, fv63, fv64, fv65]
     <;> field_simp
     <;> ring)

theorem iso_pos_consts (a b : ℝ) (hC : (isoMat a b).PosDef) :
    0 < a - b ∧ 0 < a + 2 * b := by
  constructor
  · have hne : (fun i : Fin 6 => if i.val = 0 then (1 : ℝ)
        else if i.val = 1 then -1 else 0) ≠ 0 := by
      intro h
      have h0 := congrFun h 0
      simp [fv60] at h0
    have h := hC.2 _ hne
    simp [dotProduct, Matrix.mulVec, Fin.sum_univ_six, isoMat,
      fv60, fv61, fv62, fv63, fv64, fv65] at h
    linarith
  · have h := hC.2 e6 e6_ne_zero
    simp [dotProduct, Matrix.mulVec, Fin.sum_univ_six, isoMat, e6,
      fv60, fv61, fv62, fv63, fv64, fv65] at h
    linarith

theorem iso_A_zero (a b : ℝ) (hC : (isoMat a b).PosDef) :
    (mkVRH3D (isoMat a b) (isoMat a b)⁻¹).A = 0 := by
  obtain ⟨h1, h2⟩ := iso_pos_consts a b hC
  have hinv : (isoMat a b)⁻¹ = isoSinv a b :=
    Matrix.inv_eq_right_inv (isoMat_mul_isoSinv a b h1.ne' h2.ne')
  rw [hinv]
  have c00 : isoMat a b 0 0 = a := by simp [isoMat, fv60]
  have c11 : isoMat a b 1 1 = a := by simp [isoMat, fv61]
  have c22 : isoMat a b 2 2 = a := by simp [isoMat, fv62]
  have c01 : isoMat a b 0 1 = b := by simp [isoMat, fv60, fv61]
  have c02 : isoMat a b 0 2 = b := by simp [isoMat, fv60, fv62]
  have c12 : isoMat a b 1 2 = b := by simp [isoMat, fv61, fv62]
  have c33 : isoMat a b 3 3 = (a - b) / 2 := by simp [isoMat, fv63]
  have c44 : isoMat a b 4 4 = (a - b) / 2 := by simp [isoMat, fv64]
  have c55 : isoMat a b 5 5 = (a - b) / 2 := by simp [isoMat, fv65]
  have s00 : isoSinv a b 0 0 = (a + b) / ((a - b) * (a + 2 * b)) := by
    simp [isoSinv, fv60]
  have s11 : isoSinv a b 1 1 = (a + b) / ((a - b) * (a + 2 * b)) := by
    simp [isoSinv, fv61]
  have s22 : isoSinv a b 2 2 = (a + b) / ((a - b) * (a + 2 * b)) := by
    simp [isoSinv, fv62]
  have s01 : isoSinv a b 0 1 = -b / ((a - b) * (a + 2 * b)) := by
    simp [isoSinv, fv60, fv61]
  have s02 : isoSinv a b 0 2 = -b / ((a - b) * (a + 2 * b)) := by
    simp [isoSinv, fv60, fv62]
  have s12 : isoSinv a b 1 2 = -b / ((a - b) * (a + 2 * b)) := by
    simp [isoSinv, fv61, fv62]
  have s33 : isoSinv a b 3 3 = 2 / (a - b) := by simp [isoSinv, fv63]
  have s44 : isoSinv a b 4 4 = 2 / (a - b) := by simp [isoSinv, fv64]
  have s55 : isoSinv a b 5 5 = 2 / (a - b) := by simp [isoSinv, fv65]
  have hKV : (mkVRH3D (isoMat a b) (isoSinv a b)).K_V = (a + 2 * b) / 3 := by
    rw [mkVRH3D_K_V, c00, c11, c22, c01, c02, c12]
    ring
  have hGV : (mkVRH3D (isoMat a b) (isoSinv a b)).G_V = (a - b) / 2 := by
    rw [mkVRH3D_G_V, c00, c11, c22, c01, c02, c12, c33, c44, c55]
    ring
  have hKR : (mkVRH3D (isoMat a b) (isoSinv a b)).K_R = (a + 2 * b) / 3 := by
    rw [mkVRH3D_K_R, s00, s11, s22, s01, s02, s12]
    rw [show (a + b) / ((a - b) * (a + 2 * b)) + (a + b) / ((a - b) * (a + 2 * b)) +
        (a + b) / ((a - b) * (a + 2 * b)) +
        2 * (-b / ((a - b) * (a + 2 * b)) + -b / ((a - b) * (a + 2 * b)) +
          -b / ((a - b) * (a + 2 * b))) = 3 / (a + 2 * b) from by
      field_simp
      ring]
    rw [one_div_div]
  have hGR : (mkVRH3D (isoMat a b) (isoSinv a b)).G_R = (a - b) / 2 := by
    rw [mkVRH3D_G_R, s00, s11, s22, s01, s02, s12, s33, s44, s55]
    rw [show 4 * ((a + b) / ((a - b) * (a + 2 * b)) + (a + b) / ((a - b) * (a + 2 * b)) +
          (a + b) / ((a - b) * (a + 2 * b))) -
        4 * (-b / ((a - b) * (a + 2 * b)) + -b / ((a - b) * (a + 2 * b)) +
          -b / ((a - b) * (a + 2 * b))) +
        3 * (2 / (a - b) + 2 / (a - b) + 2 / (a - b)) = 30 / (a - b) from by
      field_simp
      ring]
    rw [div_div_eq_mul_div]
    ring
  rw [mkVRH3D_A, hKV, hGV, hKR, hGR, mul_div_assoc,
    div_self (div_ne_zero h1.ne' two_ne_zero),
    div_self (div_ne_zero h2.ne' three_ne_zero)]
  norm_num

theorem mul_eeM (A : Matrix (Fin 6) (Fin 6) ℝ) :
    A * eeM = Matrix.of fun i j => (A *ᵥ e6) i * e6 j := by
  ext i j
  simp only [Matrix.mul_apply, eeM, Matrix.of_apply, Matrix.mulVec, dotProduct]
  rw [Finset.sum_mul]
  refine Finset.sum_congr rfl fun k _ => by ring

theorem traceForm_sub_left (M X Y Z : Matrix (Fin 6) (Fin 6) ℝ) :
    traceForm M (X - Y) Z = traceForm M X Z - traceForm M Y Z := by
  unfold traceForm
  rw [← Finset.sum_sub_distrib]
  refine Finset.sum_congr rfl fun j _ => ?_
  have hcol : (fun i => (X - Y) i j) = (fun i => X i j) - (fun i => Y i j) := rfl
  rw [hcol, sub_dotProduct]

theorem traceForm_sub_right (M X Y Z : Matrix (Fin 6) (Fin 6) ℝ) :
    traceForm M X (Y - Z) = traceForm M X Y - traceForm M X Z := by
  unfold traceForm
  rw [← Finset.sum_sub_distrib]
  refine Finset.sum_congr rfl fun j _ => ?_
  have hcol : (fun i => (Y - Z) i j) = (fun i => Y i j) - (fun i => Z i j) := rfl
  rw [hcol, Matrix.mulVec_sub, dotProduct_sub]

theorem traceForm_zero_eq_zero (C : Matrix (Fin 6) (Fin 6) ℝ) (hC : C.PosDef)
    (Z : Matrix (Fin 6) (Fin 6) ℝ) (h : traceForm (Chat C) Z Z = 0) : Z = 0 := by
  unfold traceForm at h
  have hterms := (Finset.sum_eq_zero_iff_of_nonneg
    (fun j _ => Chat_psd C hC (fun i => Z i j))).mp h
  ext i j
  have hcolz : (fun i => Z i j) = 0 := by
    by_contra hne
    exact absurd (hterms j (Finset.mem_univ j)) (ne_of_gt (Chat_pd C hC _ hne))
  have := congrFun hcolz i
  simpa using this

theorem DinvMat_eeM_DinvMat : DinvMat * eeM * DinvMat = eeM := by
  ext i j
  rw [DinvMat, Matrix.mul_diagonal, Matrix.diagonal_mul]
  by_cases hi : i.val < 3 <;> by_cases hj : j.val < 3 <;>
    simp [dinv6, eeM, e6, hi, hj]

theorem P6_add_eeM : P6 + (3⁻¹ : ℝ) • eeM = (1 : Matrix (Fin 6) (Fin 6) ℝ) := by
  rw [P6]
  module

set_option maxRecDepth 8000 in
set_option maxHeartbeats 1000000 in
theorem vrh_core_facts (C : Matrix (Fin 6) (Fin 6) ℝ) (hC : C.PosDef) :
    0 < e6 ⬝ᵥ C *ᵥ e6 ∧ 0 < e6 ⬝ᵥ C⁻¹ *ᵥ e6 ∧
    9 ≤ (e6 ⬝ᵥ C *ᵥ e6) * (e6 ⬝ᵥ C⁻¹ *ᵥ e6) ∧
    0 < traceForm (Chat C) P6 P6 ∧
    0 < traceForm (Chat C) (Shat C⁻¹ * P6) (Shat C⁻¹ * P6) ∧
    traceForm (Chat C) P6 (Shat C⁻¹ * P6) = 5 ∧
    25 ≤ traceForm (Chat C) P6 P6 *
      traceForm (Chat C) (Shat C⁻¹ * P6) (Shat C⁻¹ * P6) ∧
    traceForm (Chat C) P6 P6 = Matrix.trace (Chat C) - 3⁻¹ * (e6 ⬝ᵥ C *ᵥ e6) ∧
    traceForm (Chat C) (Shat C⁻¹ * P6) (Shat C⁻¹ * P6) =
      Matrix.trace (Shat C⁻¹) - 3⁻¹ * (e6 ⬝ᵥ C⁻¹ *ᵥ e6) := by
  have hsym : Cᵀ = C := hC.1
  have hdet : IsUnit C.det := by
    rw [isUnit_iff_ne_zero]
    intro h0
    obtain ⟨v, hv, hCv⟩ := Matrix.exists_mulVec_eq_zero_iff.mpr h0
    have hq := hC.2 v hv
    rw [hCv, dotProduct_zero] at hq
    exact lt_irrefl 0 hq
  set S := C⁻¹ with hSdef
  have hCS : C * S = 1 := Matrix.mul_nonsing_inv C hdet
  have hSC : S * C = 1 := Matrix.nonsing_inv_mul C hdet
  have hSsym : Sᵀ = S := by rw [hSdef, Matrix.transpose_nonsing_inv, hsym]
  have hCpsd := posdef_quad_nonneg C hC
  have hw : C *ᵥ (S *ᵥ e6) = e6 := by
    rw [Matrix.mulVec_mulVec, hCS, Matrix.one_mulVec]
  have hK9 : e6 ⬝ᵥ C *ᵥ (S *ᵥ e6) = 3 := by rw [hw, e6_dot_e6]
  have hKyy : (S *ᵥ e6) ⬝ᵥ C *ᵥ (S *ᵥ e6) = e6 ⬝ᵥ S *ᵥ e6 := by
    rw [hw, dotProduct_comm]
  have hqC : 0 < e6 ⬝ᵥ C *ᵥ e6 := hC.2 e6 e6_ne_zero
  have hwne : S *ᵥ e6 ≠ 0 := by
    intro h
    apply e6_ne_zero
    rw [← hw, h, Matrix.mulVec_zero]
  have hqS : 0 < e6 ⬝ᵥ S *ᵥ e6 := by
    rw [← hKyy]
    exact hC.2 _ hwne
  have hKcs := cs_dot C hsym hCpsd e6 (S *ᵥ e6)
  rw [hK9, hKyy] at hKcs
  have hK : (9 : ℝ) ≤ (e6 ⬝ᵥ C *ᵥ e6) * (e6 ⬝ᵥ S *ᵥ e6) := by nlinarith [hKcs]
  have hMsym := Chat_sym C hsym
  have hMpsd := Chat_psd C hC
  have hXX : traceForm (Chat C) P6 P6 = Matrix.trace (Chat C) -
      3⁻¹ * (e6 ⬝ᵥ C *ᵥ e6) := by
    rw [traceForm_P6_P6 _ hMsym, trace_mul_P6, Chat_quadratic, Dmat_mulVec_e6]
  have hYY : traceForm (Chat C) (Shat S * P6) (Shat S * P6) =
      Matrix.trace (Shat S) - 3⁻¹ * (e6 ⬝ᵥ S *ᵥ e6) := by
    rw [traceForm_eq_trace]
    have h1 : (Shat S * P6)ᵀ * Chat C * (Shat S * P6) = P6 * Shat S * P6 := by
      rw [Matrix.transpose_mul, P6_sym, Shat_sym S hSsym]
      have h2 : P6 * Shat S * Chat C * (Shat S * P6) =
          P6 * (Shat S * Chat C) * (Shat S * P6) := by noncomm_ring
      rw [h2, Shat_mul_Chat C S hSC, Matrix.mul_one, ← Matrix.mul_assoc]
    rw [h1, trace_P6_conj, trace_mul_P6, Shat_quadratic, DinvMat_mulVec_e6]
  have hcross : traceForm (Chat C) P6 (Shat S * P6) = 5 := by
    rw [traceForm_eq_trace, P6_sym]
    have h1 : P6 * Chat C * (Shat S * P6) = P6 * (Chat C * Shat S) * P6 := by
      noncomm_ring
    rw [h1, Chat_mul_Shat C S hCS, Matrix.mul_one, P6_mul_P6, trace_P6]
  have hGcs := cs_trace (Chat C) hMsym hMpsd P6 (Shat S * P6)
  rw [hcross] at hGcs
  have hXXpos : 0 < traceForm (Chat C) P6 P6 := by
    have hterm : 0 < (fun i => P6 i 0) ⬝ᵥ Chat C *ᵥ (fun i => P6 i 0) :=
      Chat_pd C hC _ P6_col0_ne_zero
    have hge : (fun i => P6 i 0) ⬝ᵥ Chat C *ᵥ (fun i => P6 i 0) ≤
        traceForm (Chat C) P6 P6 :=
      Finset.single_le_sum
        (f := fun j => (fun i => P6 i j) ⬝ᵥ Chat C *ᵥ (fun i => P6 i j))
        (fun j _ => hMpsd _) (Finset.mem_univ 0)
    linarith
  have hYcol0 : (fun i => (Shat S * P6) i 0) ≠ 0 := by
    rw [col_mul]
    intro h
    apply P6_col0_ne_zero
    have h2 : (Chat C * Shat S) *ᵥ (fun i => P6 i 0) = 0 := by
      rw [← Matrix.mulVec_mulVec, h, Matrix.mulVec_zero]
    rwa [Chat_mul_Shat C S hCS, Matrix.one_mulVec] at h2
  have hYYpos : 0 < traceForm (Chat C) (Shat S * P6) (Shat S * P6) := by
    have hterm : 0 < (fun i => (Shat S * P6) i 0) ⬝ᵥ Chat C *ᵥ
        (fun i => (Shat S * P6) i 0) := Chat_pd C hC _ hYcol0
    have hge : (fun i => (Shat S * P6) i 0) ⬝ᵥ Chat C *ᵥ
        (fun i => (Shat S * P6) i 0) ≤
        traceForm (Chat C) (Shat S * P6) (Shat S * P6) :=
      Finset.single_le_sum
        (f := fun j => (fun i => (Shat S * P6) i j) ⬝ᵥ Chat C *ᵥ
          (fun i => (Shat S * P6) i j))
        (fun j _ => hMpsd _) (Finset.mem_univ 0)
    linarith
  exact ⟨hqC, hqS, hK, hXXpos, hYYpos, hcross, by nlinarith [hGcs], hXX, hYY⟩

set_option maxRecDepth 8000 in
set_option maxHeartbeats 1000000 in
theorem vrh_core_bounds2 (C : Matrix (Fin 6) (Fin 6) ℝ) (hC : C.PosDef) :
    0 < (mkVRH3D C C⁻¹).K_R ∧ (mkVRH3D C C⁻¹).K_R ≤ (mkVRH3D C C⁻¹).K_V ∧
    0 < (mkVRH3D C C⁻¹).G_R ∧ (mkVRH3D C C⁻¹).G_R ≤ (mkVRH3D C C⁻¹).G_V := by
  obtain ⟨hqC, hqS, hK, hXXpos, hYYpos, hcross, hGcs, hXX, hYY⟩ := vrh_core_facts C hC
  have hsym : Cᵀ = C := hC.1
  have hdet : IsUnit C.det := by
    rw [isUnit_iff_ne_zero]
    intro h0
    obtain ⟨v, hv, hCv⟩ := Matrix.exists_mulVec_eq_zero_iff.mpr h0
    have hq := hC.2 v hv
    rw [hCv, dotProduct_zero] at hq
    exact lt_irrefl 0 hq
  have hSsym : (C⁻¹)ᵀ = C⁻¹ := by rw [Matrix.transpose_nonsing_inv, hsym]
  rw [hXX] at hXXpos
  rw [hYY] at hYYpos
  rw [hXX, hYY] at hGcs
  rw [quad_e6 C hsym] at hqC hK hXXpos hGcs
  rw [quad_e6 C⁻¹ hSsym] at hqS hK hYYpos hGcs
  rw [trace_Chat C] at hXXpos hGcs
  rw [trace_Shat C⁻¹] at hYYpos hGcs
  rw [mkVRH3D_K_V, mkVRH3D_K_R, mkVRH3D_G_V, mkVRH3D_G_R]
  set tC := C 0 0 + C 1 1 + C 2 2 with htCd
  set oC := C 0 1 + C 0 2 + C 1 2 with hoCd
  set shC := C 3 3 + C 4 4 + C 5 5 with hshCd
  set tS := C⁻¹ 0 0 + C⁻¹ 1 1 + C⁻¹ 2 2 with htSd
  set oS := C⁻¹ 0 1 + C⁻¹ 0 2 + C⁻¹ 1 2 with hoSd
  set shS := C⁻¹ 3 3 + C⁻¹ 4 4 + C⁻¹ 5 5 with hshSd
  have hgv : 0 < tC - oC + 3 * shC := by linarith [hXXpos]
  have hgr : 0 < 4 * tS - 4 * oS + 3 * shS := by
    have h6 : 4 * tS - 4 * oS + 3 * shS =
        6 * (tS + 1 / 2 * shS - 3⁻¹ * (tS + 2 * oS)) := by ring
    rw [h6]
    linarith [hYYpos]
  have hkey : (tC - oC + 3 * shC) * (4 * tS - 4 * oS + 3 * shS) =
      9 * ((tC + 2 * shC - 3⁻¹ * (tC + 2 * oC)) *
        (tS + 1 / 2 * (shS) - 3⁻¹ * (tS + 2 * oS))) := by ring
  refine ⟨one_div_pos.mpr hqS, ?_, div_pos (by norm_num) hgr, ?_⟩
  · rw [div_le_div_iff hqS (by norm_num : (0 : ℝ) < 9)]
    linarith [hK]
  · rw [div_le_div_iff hgr (by norm_num : (0 : ℝ) < 15)]
    calc (15 : ℝ) * 15 = 225 := by norm_num
      _ ≤ 9 * ((tC + 2 * shC - 3⁻¹ * (tC + 2 * oC)) *
          (tS + 1 / 2 * (shS) - 3⁻¹ * (tS + 2 * oS))) := by linarith [hGcs]
      _ = (tC - oC + 3 * shC) * (4 * tS - 4 * oS + 3 * shS) := hkey.symm

set_option maxRecDepth 8000 in
set_option maxHeartbeats 1600000 in
theorem vrh_A_zero_isotropic (C : Matrix (Fin 6) (Fin 6) ℝ) (hC : C.PosDef)
    (hA : (mkVRH3D C C⁻¹).A = 0) : IsotropicC C := by
  obtain ⟨hqC, hqS, hK, hXXpos, hYYpos, hcross, hGcs, hXX, hYY⟩ := vrh_core_facts C hC
  obtain ⟨hKRpos, hKRle, hGRpos, hGRle⟩ := vrh_core_bounds2 C hC
  have hsym : Cᵀ = C := hC.1
  have hdet : IsUnit C.det := by
    rw [isUnit_iff_ne_zero]
    intro h0
    obtain ⟨v, hv, hCv⟩ := Matrix.exists_mulVec_eq_zero_iff.mpr h0
    have hq := hC.2 v hv
    rw [hCv, dotProduct_zero] at hq
    exact lt_irrefl 0 hq
  set S := C⁻¹ with hSdef
  have hCS : C * S = 1 := Matrix.mul_nonsing_inv C hdet
  have hSC : S * C = 1 := Matrix.nonsing_inv_mul C hdet
  have hSsym : Sᵀ = S := by rw [hSdef, Matrix.transpose_nonsing_inv, hsym]
  -- from A = 0 and both ratios at least one: both ratios are exactly one
  rw [mkVRH3D_A, mul_div_assoc] at hA
  have hrG : 1 ≤ (mkVRH3D C S).G_V / (mkVRH3D C S).G_R := (one_le_div hGRpos).mpr hGRle
  have hrK : 1 ≤ (mkVRH3D C S).K_V / (mkVRH3D C S).K_R := (one_le_div hKRpos).mpr hKRle
  have hGeq : (mkVRH3D C S).G_V / (mkVRH3D C S).G_R = 1 := by linarith
  have hKeq : (mkVRH3D C S).K_V / (mkVRH3D C S).K_R = 1 := by linarith
  have hGVR : (mkVRH3D C S).G_V = (mkVRH3D C S).G_R :=
    (div_eq_one_iff_eq hGRpos.ne').mp hGeq
  have hKVR : (mkVRH3D C S).K_V = (mkVRH3D C S).K_R :=
    (div_eq_one_iff_eq hKRpos.ne').mp hKeq
  -- exact equality in the bulk Cauchy-Schwarz
  have h9 : (e6 ⬝ᵥ C *ᵥ e6) * (e6 ⬝ᵥ S *ᵥ e6) = 9 := by
    have h1 := hKVR
    rw [mkVRH3D_K_V, mkVRH3D_K_R, ← quad_e6 C hsym, ← quad_e6 S hSsym] at h1
    rw [div_eq_div_iff (by norm_num : (9 : ℝ) ≠ 0) hqS.ne'] at h1
    linarith [h1]
  -- exact equality in the shear Cauchy-Schwarz
  have h25 : traceForm (Chat C) P6 P6 *
      traceForm (Chat C) (Shat S * P6) (Shat S * P6) = 25 := by
    have h1 := hGVR
    rw [mkVRH3D_G_V, mkVRH3D_G_R] at h1
    rw [hXX, hYY, trace_Chat C, trace_Shat S, quad_e6 C hsym, quad_e6 S hSsym]
    have hYp := hYYpos
    rw [hYY, trace_Shat S, quad_e6 S hSsym] at hYp
    set tC := C 0 0 + C 1 1 + C 2 2
    set oC := C 0 1 + C 0 2 + C 1 2
    set shC := C 3 3 + C 4 4 + C 5 5
    set tS := S 0 0 + S 1 1 + S 2 2
    set oS := S 0 1 + S 0 2 + S 1 2
    set shS := S 3 3 + S 4 4 + S 5 5
    have hgr : 0 < 4 * tS - 4 * oS + 3 * shS := by
      have h6 : 4 * tS - 4 * oS + 3 * shS =
          6 * (tS + 1 / 2 * shS - 3⁻¹ * (tS + 2 * oS)) := by ring
      rw [h6]
      linarith [hYp]
    rw [div_eq_div_iff (by norm_num : (15 : ℝ) ≠ 0) hgr.ne'] at h1
    linear_combination (9 : ℝ)⁻¹ * h1
  -- bulk rigidity: C e6 is a multiple of e6
  set w := S *ᵥ e6 with hwdef
  have hw : C *ᵥ w = e6 := by
    rw [hwdef, Matrix.mulVec_mulVec, hCS, Matrix.one_mulVec]
  have e1 : w ⬝ᵥ C *ᵥ w = e6 ⬝ᵥ S *ᵥ e6 := by
    rw [hw, dotProduct_comm]
  have e2 : w ⬝ᵥ C *ᵥ e6 = 3 := by
    rw [dot_sym C hsym e6 w, hw, e6_dot_e6]
  have e3 : e6 ⬝ᵥ C *ᵥ w = 3 := by rw [hw, e6_dot_e6]
  set α := e6 ⬝ᵥ C *ᵥ e6 with hαdef
  have hzCz : (α • w - (3 : ℝ) • e6) ⬝ᵥ C *ᵥ (α • w - (3 : ℝ) • e6) = 0 := by
    rw [Matrix.mulVec_sub, Matrix.mulVec_smul, Matrix.mulVec_smul]
    simp only [sub_dotProduct, dotProduct_sub, smul_dotProduct, dotProduct_smul,
      smul_eq_mul]
    rw [e1, e2, e3]
    linear_combination α * h9
  have hz0 : α • w - (3 : ℝ) • e6 = 0 := by
    by_contra hzne
    exact absurd hzCz (ne_of_gt (hC.2 _ hzne))
  have hCe6 : C *ᵥ e6 = (α / 3) • e6 := by
    have h1 : α • w = (3 : ℝ) • e6 := sub_eq_zero.mp hz0
    have h2 : C *ᵥ (α • w) = C *ᵥ ((3 : ℝ) • e6) := by rw [h1]
    rw [Matrix.mulVec_smul, Matrix.mulVec_smul, hw] at h2
    have h3 := congrArg (fun v => (3 : ℝ)⁻¹ • v) h2
    simp only [smul_smul] at h3
    norm_num at h3
    rw [← h3]
    congr 1
    ring
  -- shear rigidity: Chat C * P6 is a multiple of P6
  set Y := Shat S * P6 with hYdef
  set β := traceForm (Chat C) P6 P6 with hβdef
  have hsymM := Chat_sym C hsym
  have hZero : traceForm (Chat C) (β • Y - (5 : ℝ) • P6) (β • Y - (5 : ℝ) • P6) = 0 := by
    simp only [traceForm_sub_left, traceForm_sub_right, traceForm_smul_left,
      traceForm_smul_right]
    rw [traceForm_sym (Chat C) hsymM P6 Y, hcross]
    linear_combination β * h25
  have hZ0 : β • Y - (5 : ℝ) • P6 = 0 := traceForm_zero_eq_zero C hC _ hZero
  have hChatP6 : Chat C * P6 = (β / 5) • P6 := by
    have h1 : β • Y = (5 : ℝ) • P6 := sub_eq_zero.mp hZ0
    have h2 : Chat C * (β • Y) = Chat C * ((5 : ℝ) • P6) := by rw [h1]
    rw [Matrix.mul_smul, Matrix.mul_smul] at h2
    have h3 : Chat C * Y = P6 := by
      rw [hYdef, ← Matrix.mul_assoc, Chat_mul_Shat C S hCS, Matrix.one_mul]
    rw [h3] at h2
    have h4 := congrArg (fun M : Matrix (Fin 6) (Fin 6) ℝ => (5 : ℝ)⁻¹ • M) h2
    simp only [smul_smul] at h4
    norm_num at h4
    rw [← h4]
    congr 1
    ring
  -- assemble Chat C
  have hChatE : Chat C *ᵥ e6 = (α / 3) • e6 := by
    rw [Chat, ← Matrix.mulVec_mulVec, ← Matrix.mulVec_mulVec, Dmat_mulVec_e6, hCe6,
      Matrix.mulVec_smul, Dmat_mulVec_e6]
  have hChatM : Chat C * eeM = (α / 3) • eeM := by
    rw [mul_eeM, hChatE]
    ext i j
    simp only [Matrix.of_apply, Pi.smul_apply, smul_eq_mul, Matrix.smul_apply, eeM]
    ring
  have hChatDecomp : Chat C = (β / 5) • (1 : Matrix (Fin 6) (Fin 6) ℝ) +
      ((α / 3 - β / 5) / 3) • eeM := by
    have h1 : Chat C = Chat C * P6 + (3⁻¹ : ℝ) • (Chat C * eeM) := by
      rw [← Matrix.mul_smul, ← Matrix.mul_add, P6_add_eeM, Matrix.mul_one]
    rw [h1, hChatP6, hChatM, P6]
    module
  -- recover C and match entries
  have hCrec : C = DinvMat * Chat C * DinvMat := by
    rw [Chat]
    calc C = (DinvMat * Dmat) * C * (Dmat * DinvMat) := by
          rw [DinvD, DDinv, Matrix.one_mul, Matrix.mul_one]
      _ = DinvMat * (Dmat * C * Dmat) * DinvMat := by noncomm_ring
  refine ⟨β / 5 + (α / 3 - β / 5) / 3, (α / 3 - β / 5) / 3, ?_⟩
  rw [hCrec, hChatDecomp, Matrix.mul_add, Matrix.mul_smul, Matrix.mul_smul,
    Matrix.mul_one, Matrix.add_mul, Matrix.smul_mul, Matrix.smul_mul,
    DinvMat_eeM_DinvMat]
  ext i j
  rw [show DinvMat * DinvMat = Matrix.diagonal (fun i => dinv6 i * dinv6 i) from by
    rw [DinvMat, Matrix.diagonal_mul_diagonal]]
  fin_cases i <;> fin_cases j <;>
    (simp [Matrix.add_apply, Matrix.smul_apply, Matrix.diagonal_apply, eeM, e6,
      dinv6, isoMat, fv60, fv61, fv62, fv63, fv64, fv65, smul_eq_mul]
     <;> rw [show ((Real.sqrt 2)⁻¹ * (Real.sqrt 2)⁻¹ : ℝ) = 1 / 2 from sqrt2_inv_sq]
     <;> ring)

set_option maxRecDepth 8000 in
set_option maxHeartbeats 1000000 in
/-- C3: for every symmetric positive-definite 6x6 stiffness matrix the VRH
averaging succeeds, its moduli satisfy the Voigt-Reuss-Hill ordering
K_R ≤ K_VRH ≤ K_V and G_R ≤ G_VRH ≤ G_V, the universal anisotropy index
A = 5 G_V/G_R + K_V/K_R - 6 is nonnegative, and A = 0 holds exactly when
the stiffness matrix is elastically isotropic (equal to the standard
two-parameter isotropic pattern). Bounds come from the Cauchy-Schwarz
inequality for the positive-definite quadratic and trace forms; the
equality case forces C e = k e and Chat P = m P, which pin the matrix to
the isotropic pattern. -/
theorem vrh_bounds_and_anisotropy (C : Matrix (Fin 6) (Fin 6) ℝ) (hC : C.PosDef) :
    ElasticVRH3D C = Except.ok (mkVRH3D C C⁻¹) ∧
    ((mkVRH3D C C⁻¹).K_R ≤ (mkVRH3D C C⁻¹).K_VRH ∧
      (mkVRH3D C C⁻¹).K_VRH ≤ (mkVRH3D C C⁻¹).K_V ∧
      (mkVRH3D C C⁻¹).G_R ≤ (mkVRH3D C C⁻¹).G_VRH ∧
      (mkVRH3D C C⁻¹).G_VRH ≤ (mkVRH3D C C⁻¹).G_V ∧
      0 ≤ (mkVRH3D C C⁻¹).A) ∧
    ((mkVRH3D C C⁻¹).A = 0 ↔ IsotropicC C) := by
  obtain ⟨hKRpos, hKRle, hGRpos, hGRle⟩ := vrh_core_bounds2 C hC
  have hdet : IsUnit C.det := by
    rw [isUnit_iff_ne_zero]
    intro h0
    obtain ⟨v, hv, hCv⟩ := Matrix.exists_mulVec_eq_zero_iff.mpr h0
    have hq := hC.2 v hv
    rw [hCv, dotProduct_zero] at hq
    exact lt_irrefl 0 hq
  refine ⟨?_, ⟨?_, ?_, ?_, ?_, ?_⟩, ⟨fun hA => vrh_A_zero_isotropic C hC hA, ?_⟩⟩
  · unfold ElasticVRH3D npInv6
    rw [if_pos hdet]
    rfl
  · rw [mkVRH3D_K_VRH]
    linarith
  · rw [mkVRH3D_K_VRH]
    linarith
  · rw [mkVRH3D_G_VRH]
    linarith
  · rw [mkVRH3D_G_VRH]
    linarith
  · rw [mkVRH3D_A, mul_div_assoc]
    have h1 : 1 ≤ (mkVRH3D C C⁻¹).G_V / (mkVRH3D C C⁻¹).G_R :=
      (one_le_div hGRpos).mpr hGRle
    have h2 : 1 ≤ (mkVRH3D C C⁻¹).K_V / (mkVRH3D C C⁻¹).K_R :=
      (one_le_div hKRpos).mpr hKRle
    linarith
  · rintro ⟨a, b, rfl⟩
    exact iso_A_zero a b hC

/-- Witness for C3 at the identity stiffness matrix. -/
theorem vrh_bounds_and_anisotropy_witness :
    (1 : Matrix (Fin 6) (Fin 6) ℝ).PosDef ∧
    (ElasticVRH3D 1 = Except.ok (mkVRH3D 1 1⁻¹) ∧
    ((mkVRH3D 1 (1 : Matrix (Fin 6) (Fin 6) ℝ)⁻¹).K_R ≤
        (mkVRH3D 1 (1 : Matrix (Fin 6) (Fin 6) ℝ)⁻¹).K_VRH ∧
      (mkVRH3D 1 (1 : Matrix (Fin 6) (Fin 6) ℝ)⁻¹).K_VRH ≤
        (mkVRH3D 1 (1 : Matrix (Fin 6) (Fin 6) ℝ)⁻¹).K_V ∧
      (mkVRH3D 1 (1 : Matrix (Fin 6) (Fin 6) ℝ)⁻¹).G_R ≤
        (mkVRH3D 1 (1 : Matrix (Fin 6) (Fin 6) ℝ)⁻¹).G_VRH ∧
      (mkVRH3D 1 (1 : Matrix (Fin 6) (Fin 6) ℝ)⁻¹).G_VRH ≤
        (mkVRH3D 1 (1 : Matrix (Fin 6) (Fin 6) ℝ)⁻¹).G_V ∧
      0 ≤ (mkVRH3D 1 (1 : Matrix (Fin 6) (Fin 6) ℝ)⁻¹).A) ∧
    ((mkVRH3D 1 (1 : Matrix (Fin 6) (Fin 6) ℝ)⁻¹).A = 0 ↔
      IsotropicC (1 : Matrix (Fin 6) (Fin 6) ℝ))) :=
  ⟨Matrix.PosDef.one, vrh_bounds_and_anisotropy 1 Matrix.PosDef.one⟩

end MatModelLab
